import Mathlib

/-!
Verification development for the ai-editor-agent repository.

The code under scrutiny is `src/generate_shotlist.py` (shot-list validation
and repair), the fenced-block unwrapping in `generate_shotlist.py` /
`ai_editor_utils.py`, and the metadata prober in `src/ffmpeg_utils.py`.

Python values parsed from JSON are modelled by the inductive type `JVal`.
Python operations that can raise (`key in x`, `x[key]`, `x[key] = v`,
iteration, `int(s)`) are modelled in the `Except String` monad, where
`.error` stands for an uncaught Python exception.
-/

/-- Model of a parsed JSON / Python value. Numbers are integers here: every
numeric value handled by the validator or repairer is only ever compared
or stored, and the documents in the claims use integers. -/
inductive JVal where
  | str : String → JVal
  | num : Int → JVal
  | bool : Bool → JVal
  | null : JVal
  | arr : List JVal → JVal
  | obj : List (String × JVal) → JVal

/-- First value stored under key `k`; Python dicts have unique keys, for which
this coincides with dict lookup. -/
def lookupKey {α : Type} : List (String × α) → String → Option α
  | [], _ => none
  | (k', v') :: rest, k => if k' == k then some v' else lookupKey rest k

/-- Python `d[k] = v` on the pair list of a dict: replaces the value of an
existing slot in place, otherwise appends a new pair (Python dicts keep
insertion order). -/
def setPairs {α : Type} : List (String × α) → String → α → List (String × α)
  | [], k, v => [(k, v)]
  | (k', v') :: rest, k, v =>
    if k' == k then (k', v) :: rest else (k', v') :: setPairs rest k v

/-- Boolean prefix test on character lists (first argument is the pattern). -/
def startsWithL : List Char → List Char → Bool
  | [], _ => true
  | _ :: _, [] => false
  | p :: ps, c :: cs => p == c && startsWithL ps cs

/-- Left-to-right scan for the first occurrence of `pat`: returns the text
before it and the text after it (the occurrence removed), or `none` when
`pat` does not occur. This is the primitive under Python substring tests
and `str.split`. -/
def splitFirst (pat : List Char) : List Char → Option (List Char × List Char)
  | [] => if pat.isEmpty then some ([], []) else none
  | c :: cs =>
    if startsWithL pat (c :: cs) then some ([], (c :: cs).drop pat.length)
    else (splitFirst pat cs).map (fun p => (c :: p.1, p.2))

/-- Python `pat in s` for strings (`pat` is nonempty in all call sites; the
empty pattern is treated as always present, as in Python). -/
def pySubstr (pat s : String) : Bool :=
  pat.data.isEmpty || (splitFirst pat.data s.data).isSome

/-- Python `==` between a string and an arbitrary value: true only for an
equal string. -/
def strEqJVal (f : String) : JVal → Bool
  | .str s => f == s
  | _ => false

/-- Python `key in x`. Defined for dicts (key lookup), lists (membership by
equality; a string key only equals string elements), and strings (substring);
raises `TypeError` otherwise, exactly as Python does. -/
def pyIn (key : String) : JVal → Except String Bool
  | .obj kvs => .ok (lookupKey kvs key).isSome
  | .arr l => .ok (l.any (strEqJVal key))
  | .str s => .ok (pySubstr key s)
  | _ => .error "TypeError: argument is not iterable"

/-- Python `x[key]` with a string key: dict lookup (`KeyError` when absent),
`TypeError` for every other shape. -/
def pyGetItem : JVal → String → Except String JVal
  | .obj kvs, key =>
    match lookupKey kvs key with
    | some v => .ok v
    | none => .error ("KeyError: " ++ key)
  | _, _ => .error "TypeError: value is not subscriptable with a string"

/-- Python `x[key] = v` with a string key: only dicts support it. -/
def pySetItem : JVal → String → JVal → Except String JVal
  | .obj kvs, key, v => .ok (.obj (setPairs kvs key v))
  | _, _, _ => .error "TypeError: object does not support item assignment"

/-- Python `for x in v`: lists give their elements, strings their characters,
dicts their keys; anything else raises `TypeError`. -/
def pyIter : JVal → Except String (List JVal)
  | .arr l => .ok l
  | .str s => .ok (s.data.map (fun c => .str (String.mk [c])))
  | .obj kvs => .ok (kvs.map (fun p => JVal.str p.1))
  | _ => .error "TypeError: object is not iterable"

/-- Fuel-driven worker for `str.split`: repeatedly cuts at the first
occurrence of the separator. The fuel (the length of the string) always
suffices because every cut strictly shortens the remainder. -/
def pySplitAux (pat : List Char) : Nat → List Char → List (List Char)
  | 0, s => [s]
  | n + 1, s =>
    match splitFirst pat s with
    | none => [s]
    | some (a, b) => a :: pySplitAux pat n b

/-- Python `s.split(sep)` on character lists, for a nonempty separator. -/
def pySplitL (pat s : List Char) : List (List Char) :=
  pySplitAux pat s.length s

/-- Python `s.split(sep)` on strings. -/
def pySplitStr (sep s : String) : List String :=
  (pySplitL sep.data s.data).map String.mk

/-- Python whitespace for `str.strip()` / `int()`:
space, tab, newline, carriage return, vertical tab, form feed. -/
def pyIsSpace (c : Char) : Bool :=
  c == ' ' || c == '\t' || c == '\n' || c == '\r' || c == '\x0b' || c == '\x0c'

/-- Python `s.strip()` on a character list. -/
def pyStrip (s : List Char) : List Char :=
  ((s.dropWhile pyIsSpace).reverse.dropWhile pyIsSpace).reverse

/-- Tail of a digit group in a Python integer literal: digits with single
underscores allowed between digits. -/
def pyDigitsRest : List Char → Bool
  | [] => true
  | '_' :: c :: rest => c.isDigit && pyDigitsRest rest
  | '_' :: [] => false
  | c :: rest => c.isDigit && pyDigitsRest rest

/-- Whole digit group of a Python integer literal: nonempty, starts with a
digit, single underscores allowed between digits. -/
def pyDigitsOk : List Char → Bool
  | [] => false
  | c :: rest => c.isDigit && pyDigitsRest rest

/-- Numeric value of a digit group (underscores skipped). -/
def pyDigitsVal (l : List Char) : Nat :=
  (l.filter (fun c => c != '_')).foldl (fun a c => a * 10 + (c.toNat - 48)) 0

/-- Python `int(s)` for a string argument: optional surrounding whitespace,
optional sign, then a digit group; anything else raises `ValueError`. -/
def pyParseInt (s : String) : Except String Int :=
  let t := ((s.data.dropWhile pyIsSpace).reverse.dropWhile pyIsSpace).reverse
  match t with
  | '+' :: rest =>
    if pyDigitsOk rest then .ok (Int.ofNat (pyDigitsVal rest))
    else .error "ValueError: invalid literal for int()"
  | '-' :: rest =>
    if pyDigitsOk rest then .ok (-(Int.ofNat (pyDigitsVal rest)))
    else .error "ValueError: invalid literal for int()"
  | rest =>
    if pyDigitsOk rest then .ok (Int.ofNat (pyDigitsVal rest))
    else .error "ValueError: invalid literal for int()"

/-!
`validate_shot_list_format(shot_list, all_filenames=None)`
(src/generate_shotlist.py, lines 25-85).

The Python function returns a pair `(is_valid, error_message)`; any uncaught
exception raised on the way is an `.error`. `none` for `all_filenames`
models the Python default `None`; Python's `if all_filenames:` is falsy for
both `None` and the empty list.
-/

def requiredKeys : List String := ["project_name", "narrative_theme", "shots"]

def shotKeys : List String :=
  ["filename", "description", "start_time", "end_time", "duration",
   "transition_in", "transition_out"]

def timeKeys : List String := ["start_time", "end_time", "duration"]

/-- Lines 38-40: the loop over `required_keys`, returning the first missing
one. -/
def checkRequiredKeys (shot_list : JVal) : List String → Except String (Option String)
  | [] => .ok none
  | k :: ks =>
    match pyIn k shot_list with
    | .error e => .error e
    | .ok true => checkRequiredKeys shot_list ks
    | .ok false => .ok (some ("Missing required key: \x27" ++ k ++ "\x27"))

/-- Lines 54-56: the loop over `shot_keys` for shot number `i+1`. -/
def checkShotKeys (i : Nat) (shot : JVal) : List String → Except String (Option String)
  | [] => .ok none
  | k :: ks =>
    match pyIn k shot with
    | .error e => .error e
    | .ok true => checkShotKeys i shot ks
    | .ok false =>
      .ok (some (s!"Shot {i + 1} is missing required key: \x27" ++ k ++ "\x27"))

/-- Lines 59-75: the loop over the three time keys of shot number `i+1`:
type check, `split(":")` into exactly three parts, integer parsing
(`ValueError` is caught and reported) and the range check. -/
def checkTimeKeys (i : Nat) (shot : JVal) : List String → Except String (Option String)
  | [] => .ok none
  | key :: rest =>
    match pyGetItem shot key with
    | .error e => .error e
    | .ok time_str =>
      match time_str with
      | .str t =>
        let parts := pySplitStr ":" t
        if parts.length != 3 then
          .ok (some (s!"Shot {i + 1}: \x27" ++ key ++ "\x27 must be in format \x27HH:MM:SS\x27"))
        else
          match parts with
          | [p0, p1, p2] =>
            match pyParseInt p0, pyParseInt p1, pyParseInt p2 with
            | .ok hours, .ok minutes, .ok seconds =>
              if !(0 ≤ hours ∧ 0 ≤ minutes ∧ minutes < 60 ∧ 0 ≤ seconds ∧ seconds < 60) then
                .ok (some (s!"Shot {i + 1}: \x27" ++ key ++ "\x27 contains invalid time values"))
              else checkTimeKeys i shot rest
            | _, _, _ =>
              .ok (some (s!"Shot {i + 1}: \x27" ++ key ++ "\x27 must contain numeric values"))
          | _ =>
            .ok (some (s!"Shot {i + 1}: \x27" ++ key ++ "\x27 must be in format \x27HH:MM:SS\x27"))
      | _ => .ok (some (s!"Shot {i + 1}: \x27" ++ key ++ "\x27 must be a string"))

/-- Lines 50-75: the per-shot body (key presence, then time checks). -/
def checkShot (i : Nat) (shot : JVal) : Except String (Option String) :=
  match checkShotKeys i shot shotKeys with
  | .error e => .error e
  | .ok (some e) => .ok (some e)
  | .ok none => checkTimeKeys i shot timeKeys

/-- The `enumerate(shot_list["shots"])` loop, shots indexed from `i`. -/
def checkShots (i : Nat) : List JVal → Except String (Option String)
  | [] => .ok none
  | shot :: rest =>
    match checkShot i shot with
    | .error e => .error e
    | .ok (some e) => .ok (some e)
    | .ok none => checkShots (i + 1) rest

/-- The comprehension `[shot["filename"] for shot in shots]` used at line 79
and again at line 250. -/
def getFilenames : List JVal → Except String (List JVal)
  | [] => .ok []
  | shot :: rest =>
    match pyGetItem shot "filename" with
    | .error e => .error e
    | .ok v =>
      match getFilenames rest with
      | .error e => .error e
      | .ok vs => .ok (v :: vs)

/-- Python `f in shot_filenames` for a string `f` over a list of arbitrary
values: equality with a string element. -/
def strInList (f : String) (l : List JVal) : Bool :=
  l.any (strEqJVal f)

/-- `validate_shot_list_format` itself. -/
def validate_shot_list_format (shot_list : JVal)
    (all_filenames : Option (List String)) : Except String (Bool × Option String) :=
  match checkRequiredKeys shot_list requiredKeys with
  | .error e => .error e
  | .ok (some e) => .ok (false, some e)
  | .ok none =>
    match pyGetItem shot_list "shots" with
    | .error e => .error e
    | .ok shotsVal =>
      match shotsVal with
      | .arr shots =>
        if shots.length == 0 then .ok (false, some "\x27shots\x27 array cannot be empty")
        else
          match checkShots 0 shots with
          | .error e => .error e
          | .ok (some e) => .ok (false, some e)
          | .ok none =>
            match all_filenames with
            | none => .ok (true, none)
            | some fns =>
              if fns.isEmpty then .ok (true, none)
              else
                match getFilenames shots with
                | .error e => .error e
                | .ok shot_filenames =>
                  let missing_files := fns.filter (fun f => !(strInList f shot_filenames))
                  if missing_files.isEmpty then .ok (true, none)
                  else .ok (false, some ("Shot list is missing the following files: " ++
                    String.intercalate ", " missing_files))
      | _ => .ok (false, some "\x27shots\x27 must be an array")

/-!
The repair step of `generate_shot_list_from_json`
(src/generate_shotlist.py, lines 238-271).

`videos_info` entries are the dictionaries built at lines 139-144: they hold
exactly the keys `filename`, `content`, `duration` (the formatted duration)
and `duration_seconds` — there is no `duration_formatted` key.
-/

/-- The per-video record built at lines 139-144. `duration` holds the
formatted `HH:MM:SS` string (`metadata.get("duration_formatted", "unknown")`)
and `duration_seconds` the numeric duration. -/
structure VideoInfo where
  filename : String
  content : String
  duration : String
  duration_seconds : Int

/-- The dictionary shape of a `VideoInfo`, with the exact keys of
lines 139-144. -/
def VideoInfo.toPairs (v : VideoInfo) : List (String × JVal) :=
  [("filename", .str v.filename), ("content", .str v.content),
   ("duration", .str v.duration), ("duration_seconds", .num v.duration_seconds)]

/-- Python `video_info.get(key, default)` on that dictionary. -/
def VideoInfo.get (v : VideoInfo) (key : String) (dflt : JVal) : JVal :=
  match lookupKey v.toPairs key with
  | some x => x
  | none => dflt

/-- The shot appended at lines 263-271 for a missing `filename`. Note that
the code asks the video-info dictionary for `"duration_formatted"`, a key
those dictionaries never contain. -/
def synthEntry (filename : String) (video_info : VideoInfo) : JVal :=
  .obj [("filename", .str filename),
        ("description", .str (s!"Added shot from {filename}")),
        ("start_time", .str "00:00:00"),
        ("end_time", video_info.get "duration_formatted" (.str "00:01:00")),
        ("duration", video_info.get "duration_formatted" (.str "00:01:00")),
        ("transition_in", .str "cut"),
        ("transition_out", .str "cut")]

/-- Lines 239-246: `if key not in shot_list: shot_list[key] = fallback`. -/
def ensureKey (d : JVal) (k : String) (v : JVal) : Except String JVal :=
  match pyIn k d with
  | .error e => .error e
  | .ok true => .ok d
  | .ok false => pySetItem d k v

/-- The loop of lines 257-271 over `missing_files`: the entries actually
appended — `next((v for v in videos_info if v["filename"] == filename), None)`
picks the first matching record, and nothing is appended when there is
none. -/
def synthFor (videos_info : List VideoInfo) (missing_files : List String) : List JVal :=
  missing_files.filterMap (fun f =>
    (videos_info.find? (fun v => v.filename == f)).map (fun vi => synthEntry f vi))

/-- The repair block, lines 238-271: fill in the three top-level keys, then
append a synthesized shot for every filename of `all_filenames` that is
missing from `shots[*].filename` and has a matching `videos_info` record.
The list of existing filenames is computed once, before any append. -/
def repair (shot_list : JVal) (all_filenames : List String)
    (videos_info : List VideoInfo) : Except String JVal :=
  match ensureKey shot_list "shots" (.arr []) with
  | .error e => .error e
  | .ok d1 =>
    match ensureKey d1 "project_name" (.str "Video Project") with
    | .error e => .error e
    | .ok d2 =>
      match ensureKey d2 "narrative_theme" (.str "Compilation of available footage") with
      | .error e => .error e
      | .ok d3 =>
        if all_filenames.isEmpty then .ok d3
        else
          match pyGetItem d3 "shots" with
          | .error e => .error e
          | .ok shotsVal =>
            match pyIter shotsVal with
            | .error e => .error e
            | .ok shotsList =>
              match getFilenames shotsList with
              | .error e => .error e
              | .ok shot_filenames =>
                let missing_files :=
                  all_filenames.filter (fun f => !(strInList f shot_filenames))
                let newEntries := synthFor videos_info missing_files
                if newEntries.isEmpty then .ok d3
                else
                  match shotsVal with
                  | .arr l => pySetItem d3 "shots" (.arr (l ++ newEntries))
                  | _ => .error "AttributeError: object has no attribute append"

/-!
The fenced-block unwrapper (src/generate_shotlist.py lines 219-222 and
src/ai_editor_utils.py lines 434-437):

    if "```json" in text: text = text.split("```json")[1].split("```")[0].strip()
    elif "```" in text:   text = text.split("```")[1].split("```")[0].strip()
-/

/-- The characters of the tagged opening delimiter. -/
def jsonFence : List Char := "```json".data

/-- The characters of a bare fence. -/
def tripleTick : List Char := "```".data

/-- The unwrapping step, on the raw response text. `split(sep)[1]` exists
whenever `sep` occurs, which the branch condition guarantees; the dead
default of `headD` is unreachable. -/
def extractJson (text : String) : String :=
  let s := text.data
  if (splitFirst jsonFence s).isSome then
    let chunk := ((pySplitL jsonFence s).drop 1).headD []
    String.mk (pyStrip ((pySplitL tripleTick chunk).headD []))
  else if (splitFirst tripleTick s).isSome then
    let chunk := ((pySplitL tripleTick s).drop 1).headD []
    String.mk (pyStrip ((pySplitL tripleTick chunk).headD []))
  else text

/-!
`extract_video_metadata(video_file)` (src/ffmpeg_utils.py, lines 307-422).

The subprocess call and JSON decoding are the function's boundary: their
already-parsed result is the `RawMetadata` input here (probe failure and
undecodable output return `None` before this logic runs and carry no field
logic). ffprobe's numeric strings are modelled as already-converted exact
rationals; where Python rounds IEEE floats (`round(x, 2)`) the model rounds
the exact value half-to-even, which agrees except for binary-float artifacts.
-/

/-- Metadata values: strings and (exact rational) numbers. -/
inductive MVal where
  | str : String → MVal
  | num : Rat → MVal

/-- The `format` section of the ffprobe report: each field is present only
when ffprobe reported it. `duration` is the parsed `float(...)` value,
`size` the parsed `int(...)` value, `bit_rate` the raw string (the code
checks `isdigit()` before converting). -/
structure RawFormat where
  duration : Option Rat
  size : Option Int
  bit_rate : Option String

/-- One entry of the `streams` section of the ffprobe report. -/
structure RawStream where
  codec_type : Option String
  width : Option Int
  height : Option Int
  display_aspect_ratio : Option String
  codec_name : Option String
  avg_frame_rate : Option String

/-- The parsed ffprobe report. -/
structure RawMetadata where
  format : Option RawFormat
  streams : Option (List RawStream)

/-- Python `round(x, 2)` on the exact value: round half to even at two
decimal places. -/
def round2 (q : Rat) : Rat :=
  let y := q * 100
  let n := y.floor
  let frac := y - (n : Rat)
  if frac > 1 / 2 then ((n + 1 : Int) : Rat) / 100
  else if frac < 1 / 2 then ((n : Int) : Rat) / 100
  else if n % 2 == 0 then ((n : Int) : Rat) / 100
  else ((n + 1 : Int) : Rat) / 100

/-- Python `f"{int(x):02d}"`: at least two characters, zero-padded. -/
def pad2 (n : Int) : String :=
  let s := toString n
  if s.length < 2 then "0" ++ s else s

/-- Lines 352-354: `divmod(duration_sec, 3600)`, `divmod(remainder, 60)` and
the `HH:MM:SS` rendering. `divmod` floors, and each `int(...)` truncates a
non-negative value, so floors throughout are exact. -/
def formatHMS (d : Rat) : String :=
  let h : Int := (d / 3600).floor
  let rem : Rat := d - 3600 * (h : Rat)
  let m : Int := (rem / 60).floor
  let s : Rat := rem - 60 * (m : Rat)
  pad2 h ++ ":" ++ pad2 m ++ ":" ++ pad2 s.floor

/-- Rendering of a two-decimal float the way Python prints it
(`str(2.0) = "2.0"`, `str(2.5) = "2.5"`, `str(2.05) = "2.05"`); the input is
always a `round2` result, i.e. a multiple of 1/100. -/
def showRat2 (q : Rat) : String :=
  let n : Int := (q * 100).floor
  let ip : Int := n / 100
  let fr : Int := n % 100
  let tens : Int := fr / 10
  let ones : Int := fr % 10
  if fr == 0 then toString ip ++ ".0"
  else if ones == 0 then toString ip ++ "." ++ toString tens
  else if fr < 10 then toString ip ++ ".0" ++ toString fr
  else toString ip ++ "." ++ toString fr

/-- Python `s.isdigit()` restricted to ASCII digits (all call sites feed
ffprobe ASCII output). -/
def pyIsDigitStr (s : String) : Bool :=
  !s.data.isEmpty && s.data.all Char.isDigit

/-- Python `os.path.basename`: the part after the last slash. -/
def pyBasename (p : String) : String :=
  match (pySplitL "/".data p.data).getLast? with
  | some l => String.mk l
  | none => p

/-- Lines 329-340: the initial metadata dictionary, in source order.
`filepath` is `os.path.abspath(video_file)`, which depends on the process
working directory; it is modelled as the given path. -/
def initMetadata (video_file : String) : List (String × MVal) :=
  [("filename", .str (pyBasename video_file)),
   ("filepath", .str video_file),
   ("filesize_mb", .num 0),
   ("duration", .num 0),
   ("resolution", .str "unknown"),
   ("aspect_ratio", .str "unknown"),
   ("video_codec", .str "unknown"),
   ("audio_codec", .str "unknown"),
   ("bitrate", .str "unknown"),
   ("fps", .num 0)]

/-- Lines 346-354: the duration fields. `duration_formatted` is written
only inside the `if "duration" in format_info:` branch. -/
def applyDuration (m : List (String × MVal)) (fo : RawFormat) : List (String × MVal) :=
  match fo.duration with
  | some d =>
    setPairs (setPairs m "duration" (.num d)) "duration_formatted" (.str (formatHMS d))
  | none => m

/-- Lines 356-359: the file size in MB. -/
def applySize (m : List (String × MVal)) (fo : RawFormat) : List (String × MVal) :=
  match fo.size with
  | some sz => setPairs m "filesize_mb" (.num (round2 ((sz : Rat) / 1048576)))
  | none => m

/-- Lines 361-364: the bitrate, set only when the reported string `isdigit()`. -/
def applyBitrate (m : List (String × MVal)) (fo : RawFormat) : List (String × MVal) :=
  match fo.bit_rate with
  | some br =>
    if pyIsDigitStr br then
      setPairs m "bitrate"
        (.str (showRat2 (round2 ((Int.ofNat (pyDigitsVal br.data) : Rat) / 1000000)) ++ " Mbps"))
    else m
  | none => m

/-- Lines 343-364: the `format` section, in source order. -/
def applyFormat (m : List (String × MVal)) (fo : RawFormat) : List (String × MVal) :=
  applyBitrate (applySize (applyDuration m fo) fo) fo

/-- Lines 377-391: the resolution-name thresholds. -/
def resolutionName (w h : Int) : String :=
  if w ≥ 7680 ∧ h ≥ 4320 then "8K"
  else if w ≥ 3840 ∧ h ≥ 2160 then "4K"
  else if w ≥ 2560 ∧ h ≥ 1440 then "2K"
  else if w ≥ 1920 ∧ h ≥ 1080 then "1080p"
  else if w ≥ 1280 ∧ h ≥ 720 then "720p"
  else if w ≥ 854 ∧ h ≥ 480 then "480p"
  else "SD"

/-- Lines 372-391: resolution and resolution name, set only when the video
stream reports both dimensions. -/
def applyVideoRes (m : List (String × MVal)) (st : RawStream) : List (String × MVal) :=
  match st.width, st.height with
  | some w, some h =>
    setPairs (setPairs m "resolution" (.str (toString w ++ "x" ++ toString h)))
      "resolution_name" (.str (resolutionName w h))
  | _, _ => m

/-- Lines 402-407: the frame-rate field. `map(int, frame_rate.split("/"))`
unpacks into exactly two integers; a malformed value raises `ValueError`,
which nothing catches. -/
def applyFps (m : List (String × MVal)) (fr : String) : Except String (List (String × MVal)) :=
  if pySubstr "/" fr then
    match pySplitStr "/" fr with
    | [a, b] =>
      match pyParseInt a, pyParseInt b with
      | .ok num, .ok den =>
        if den != 0 then
          .ok (setPairs m "fps" (.num (round2 ((num : Rat) / (den : Rat)))))
        else .ok m
      | _, _ => .error "ValueError: invalid literal for int()"
    | _ => .error "ValueError: wrong number of values to unpack"
  else .ok m

/-- Lines 393-395: the display aspect ratio of a video stream. -/
def applyAspect (m : List (String × MVal)) (st : RawStream) : List (String × MVal) :=
  match st.display_aspect_ratio with
  | some a => setPairs m "aspect_ratio" (.str a)
  | none => m

/-- Lines 397-399: the video codec. -/
def applyVCodec (m : List (String × MVal)) (st : RawStream) : List (String × MVal) :=
  match st.codec_name with
  | some c => setPairs m "video_codec" (.str c)
  | none => m

/-- Lines 410-413: the audio codec. -/
def applyACodec (m : List (String × MVal)) (st : RawStream) : List (String × MVal) :=
  match st.codec_name with
  | some c => setPairs m "audio_codec" (.str c)
  | none => m

/-- Lines 368-413: one stream of the report, applying the video-stream or
audio-stream updates in source order. -/
def processStream (m : List (String × MVal)) (st : RawStream) :
    Except String (List (String × MVal)) :=
  if st.codec_type == some "video" then
    match st.avg_frame_rate with
    | some fr => applyFps (applyVCodec (applyAspect (applyVideoRes m st) st) st) fr
    | none => .ok (applyVCodec (applyAspect (applyVideoRes m st) st) st)
  else if st.codec_type == some "audio" then
    .ok (applyACodec m st)
  else .ok m

/-- The `for stream in raw_metadata["streams"]` loop. -/
def processStreams (m : List (String × MVal)) :
    List RawStream → Except String (List (String × MVal))
  | [] => .ok m
  | st :: rest =>
    match processStream m st with
    | .error e => .error e
    | .ok m' => processStreams m' rest

/-- The `if "format" in raw_metadata:` guard of line 343. -/
def applyFormatOpt (m : List (String × MVal)) : Option RawFormat → List (String × MVal)
  | some fo => applyFormat m fo
  | none => m

/-- `extract_video_metadata` on an already-parsed ffprobe report: the
initial dictionary, the `format` section when present, then the
`if "streams" in raw_metadata:` loop. -/
def extract_video_metadata (video_file : String) (raw : RawMetadata) :
    Except String (List (String × MVal)) :=
  match raw.streams with
  | some sts => processStreams (applyFormatOpt (initMetadata video_file) raw.format) sts
  | none => .ok (applyFormatOpt (initMetadata video_file) raw.format)

/-!
Support definitions for the statements of the claims.
-/

/-- The spec's acceptance condition for one time string, in its own words:
exactly three colon-separated components, each parsing as an integer, hours
non-negative, minutes and seconds in `[0, 60)`. -/
def timeStringOk (t : String) : Bool :=
  match pySplitStr ":" t with
  | [p0, p1, p2] =>
    match pyParseInt p0, pyParseInt p1, pyParseInt p2 with
    | .ok hours, .ok minutes, .ok seconds =>
      decide (0 ≤ hours ∧ 0 ≤ minutes ∧ minutes < 60 ∧ 0 ≤ seconds ∧ seconds < 60)
    | _, _, _ => false
  | _ => false

/-- A shot entry with all seven required fields, whose `start_time` is the
given string and whose other time fields are fixed valid times. -/
def mkTimeShot (t : String) : JVal :=
  .obj [("filename", .str "a.mp4"), ("description", .str "d"),
        ("start_time", .str t), ("end_time", .str "00:00:10"),
        ("duration", .str "00:00:05"), ("transition_in", .str "cut"),
        ("transition_out", .str "cut")]

/-- A document that is valid except possibly for the `start_time` of its
single shot. -/
def mkTimeDoc (t : String) : JVal :=
  .obj [("project_name", .str "p"), ("narrative_theme", .str "n"),
        ("shots", .arr [mkTimeShot t])]

/-- The `shots` sequence of a document (empty for any other shape). -/
def shotsOf (d : JVal) : List JVal :=
  match d with
  | .obj kvs =>
    match lookupKey kvs "shots" with
    | some (.arr l) => l
    | _ => []
  | _ => []

/-- The `filename` value of one shot entry, when the entry is a mapping
that carries one. -/
def entryName : JVal → Option JVal
  | .obj skvs => lookupKey skvs "filename"
  | _ => none

/-- The `filename` values of a document's shot entries. -/
def filenamesOf (d : JVal) : List JVal :=
  (shotsOf d).filterMap entryName

/-- Every element of the document's `shots` array (when the key holds an
array) is a mapping. -/
def entriesAllObjB (kvs : List (String × JVal)) : Bool :=
  match lookupKey kvs "shots" with
  | some (.arr l) => l.all (fun s => match s with | .obj _ => true | _ => false)
  | _ => true

/-- A shot entry that is a mapping carrying a `filename` key. -/
def entryHasFilenameB : JVal → Bool
  | .obj skvs => (lookupKey skvs "filename").isSome
  | _ => false

/-- The document's `shots` value, when present, is an array of mappings that
all carry a `filename` key. -/
def shotsWellFormedB (kvs : List (String × JVal)) : Bool :=
  match lookupKey kvs "shots" with
  | none => true
  | some (.arr l) => l.all entryHasFilenameB
  | some _ => false

/-- The backtick character, `Char.ofNat 96`. -/
def backtick : Char := Char.ofNat 96

/-- The characters of the language tag that follows the backticks in the
tagged delimiter. -/
def jsonWord : List Char := "json".data

/-- Result of `if key not in d: d[key] = v` on a mapping's pair list. -/
def ensuredPairs (kvs : List (String × JVal)) (k : String) (v : JVal) :
    List (String × JVal) :=
  match lookupKey kvs k with
  | some _ => kvs
  | none => setPairs kvs k v

/-- The filenames carried by the entries that the repair step appends for a
missing-filename list. -/
def appendedNames (infos : List VideoInfo) (missing : List String) : List JVal :=
  missing.filterMap (fun f =>
    (infos.find? (fun v => v.filename == f)).map (fun _ => JVal.str f))

/-- Continuation of the validator after the per-shot checks of a single-shot
document: errors propagate, a reported message yields `(false, message)`,
success (with no known-filename list) yields `(true, none)`. -/
def vK : Except String (Option String) → Except String (Bool × Option String)
  | .error e => .error e
  | .ok (some e) => .ok (false, some e)
  | .ok none => .ok (true, none)

/-!
Basic lemmas about the dictionary model.
-/

theorem lookupKey_setPairs_self {α : Type} (kvs : List (String × α)) (k : String) (v : α) :
    lookupKey (setPairs kvs k v) k = some v := by
  induction kvs with
  | nil => simp [setPairs, lookupKey]
  | cons p rest ih =>
    obtain ⟨k', v'⟩ := p
    by_cases h : k' = k
    · simp [setPairs, lookupKey, h]
    · simp [setPairs, lookupKey, h, ih]

theorem lookupKey_setPairs_ne {α : Type} (kvs : List (String × α)) (k k' : String) (v : α)
    (h : k' ≠ k) : lookupKey (setPairs kvs k v) k' = lookupKey kvs k' := by
  have hne : ¬ k = k' := fun he => h he.symm
  induction kvs with
  | nil => simp [setPairs, lookupKey, hne]
  | cons p rest ih =>
    obtain ⟨k0, v0⟩ := p
    by_cases h0 : k0 = k
    · subst h0
      simp [setPairs, lookupKey, hne]
    · by_cases h1 : k0 = k'
      · subst h1
        simp [setPairs, lookupKey, h0]
      · simp [setPairs, lookupKey, h0, h1, ih]

theorem setPairs_self_eq {α : Type} (kvs : List (String × α)) (k : String) (v : α)
    (h : lookupKey kvs k = some v) : setPairs kvs k v = kvs := by
  induction kvs with
  | nil => simp [lookupKey] at h
  | cons p rest ih =>
    obtain ⟨k0, v0⟩ := p
    by_cases h0 : k0 = k
    · simp only [lookupKey, h0, beq_self_eq_true, if_true, Option.some.injEq] at h
      simp [setPairs, h0, h]
    · simp only [lookupKey, beq_iff_eq, h0, if_false] at h
      simp [setPairs, h0, ih h]

theorem checkRequiredKeys_obj (kvs : List (String × JVal)) (ks : List String) :
    ∃ o, checkRequiredKeys (.obj kvs) ks = .ok o := by
  induction ks with
  | nil => exact ⟨none, rfl⟩
  | cons k rest ih =>
    obtain ⟨o, ho⟩ := ih
    cases h : (lookupKey kvs k).isSome
    · exact ⟨some ("Missing required key: \x27" ++ k ++ "\x27"),
        by simp [checkRequiredKeys, pyIn, h]⟩
    · exact ⟨o, by simp [checkRequiredKeys, pyIn, h, ho]⟩

theorem checkRequiredKeys_none_mem (kvs : List (String × JVal)) (ks : List String)
    (h : checkRequiredKeys (.obj kvs) ks = .ok none) :
    ∀ k ∈ ks, (lookupKey kvs k).isSome = true := by
  induction ks with
  | nil => intro k hk; cases hk
  | cons k0 rest ih =>
    intro k hk
    simp only [checkRequiredKeys, pyIn] at h
    cases h0 : (lookupKey kvs k0).isSome
    · rw [h0] at h; simp at h
    · rw [h0] at h
      rcases List.mem_cons.mp hk with hk | hk
      · exact hk ▸ h0
      · exact ih h k hk

theorem checkShotKeys_obj (i : Nat) (kvs : List (String × JVal)) (ks : List String) :
    ∃ o, checkShotKeys i (.obj kvs) ks = .ok o := by
  induction ks with
  | nil => exact ⟨none, rfl⟩
  | cons k rest ih =>
    obtain ⟨o, ho⟩ := ih
    cases h : (lookupKey kvs k).isSome
    · exact ⟨some (s!"Shot {i + 1} is missing required key: \x27" ++ k ++ "\x27"),
        by simp [checkShotKeys, pyIn, h]⟩
    · exact ⟨o, by simp [checkShotKeys, pyIn, h, ho]⟩

theorem checkShotKeys_none_mem (i : Nat) (kvs : List (String × JVal)) (ks : List String)
    (h : checkShotKeys i (.obj kvs) ks = .ok none) :
    ∀ k ∈ ks, (lookupKey kvs k).isSome = true := by
  induction ks with
  | nil => intro k hk; cases hk
  | cons k0 rest ih =>
    intro k hk
    simp only [checkShotKeys, pyIn] at h
    cases h0 : (lookupKey kvs k0).isSome
    · rw [h0] at h; simp at h
    · rw [h0] at h
      rcases List.mem_cons.mp hk with hk | hk
      · exact hk ▸ h0
      · exact ih h k hk

theorem checkTimeKeys_total (i : Nat) (skvs : List (String × JVal)) (ks : List String)
    (hpres : ∀ k ∈ ks, (lookupKey skvs k).isSome = true) :
    ∃ o, checkTimeKeys i (.obj skvs) ks = .ok o := by
  induction ks with
  | nil => exact ⟨none, rfl⟩
  | cons k rest ih =>
    obtain ⟨v, hv⟩ := Option.isSome_iff_exists.mp (hpres k (List.mem_cons_self k rest))
    obtain ⟨o, ho⟩ := ih (fun k' hk' => hpres k' (List.mem_cons_of_mem _ hk'))
    cases v <;> simp only [checkTimeKeys, pyGetItem, hv] <;>
      first
        | exact ⟨_, rfl⟩
        | ((repeat' split) <;> first | exact ⟨_, rfl⟩ | exact ⟨o, ho⟩)

theorem checkShot_obj_total (i : Nat) (skvs : List (String × JVal)) :
    ∃ o, checkShot i (.obj skvs) = .ok o := by
  obtain ⟨o, ho⟩ := checkShotKeys_obj i skvs shotKeys
  cases o with
  | some e => exact ⟨some e, by simp [checkShot, ho]⟩
  | none =>
    have hpres : ∀ k ∈ timeKeys, (lookupKey skvs k).isSome = true := by
      intro k hk
      refine checkShotKeys_none_mem i skvs shotKeys ho k ?_
      revert hk
      simp [timeKeys, shotKeys]
      intro h
      rcases h with h | h | h <;> simp [h]
    obtain ⟨o, ho2⟩ := checkTimeKeys_total i skvs timeKeys hpres
    exact ⟨o, by simp [checkShot, ho, ho2]⟩

theorem checkShot_none_filename (i : Nat) (skvs : List (String × JVal))
    (h : checkShot i (.obj skvs) = .ok none) :
    (lookupKey skvs "filename").isSome = true := by
  simp only [checkShot] at h
  cases hk : checkShotKeys i (.obj skvs) shotKeys with
  | error e => rw [hk] at h; simp at h
  | ok o =>
    cases o with
    | some e => rw [hk] at h; simp at h
    | none =>
      exact checkShotKeys_none_mem i skvs shotKeys hk "filename" (by simp [shotKeys])

theorem checkShots_total (l : List JVal) (i : Nat)
    (hobj : ∀ s ∈ l, ∃ skvs, s = JVal.obj skvs) :
    ∃ o, checkShots i l = .ok o := by
  induction l generalizing i with
  | nil => exact ⟨none, rfl⟩
  | cons s rest ih =>
    obtain ⟨skvs, hs⟩ := hobj s (List.mem_cons_self s rest)
    subst hs
    obtain ⟨o1, ho1⟩ := checkShot_obj_total i skvs
    cases o1 with
    | some e => exact ⟨some e, by simp [checkShots, ho1]⟩
    | none =>
      obtain ⟨o, ho⟩ := ih (fun s' hs' => hobj s' (List.mem_cons_of_mem _ hs')) (i := i + 1)
      exact ⟨o, by simp [checkShots, ho1, ho]⟩

theorem getFilenames_total (l : List JVal)
    (hobj : ∀ s ∈ l, ∃ skvs, s = JVal.obj skvs ∧ (lookupKey skvs "filename").isSome = true) :
    ∃ fns, getFilenames l = .ok fns := by
  induction l with
  | nil => exact ⟨[], rfl⟩
  | cons s rest ih =>
    obtain ⟨skvs, hs, hf⟩ := hobj s (List.mem_cons_self s rest)
    subst hs
    obtain ⟨v, hv⟩ := Option.isSome_iff_exists.mp hf
    obtain ⟨fns, hfns⟩ := ih (fun s' hs' => hobj s' (List.mem_cons_of_mem _ hs'))
    exact ⟨v :: fns, by simp [getFilenames, pyGetItem, hv, hfns]⟩

theorem checkShots_none_filenames (l : List JVal) (i : Nat)
    (hobj : ∀ s ∈ l, ∃ skvs, s = JVal.obj skvs)
    (h : checkShots i l = .ok none) :
    ∀ s ∈ l, ∃ skvs, s = JVal.obj skvs ∧ (lookupKey skvs "filename").isSome = true := by
  induction l generalizing i with
  | nil => intro s hs; cases hs
  | cons s0 rest ih =>
    intro s hs
    obtain ⟨skvs0, hs0⟩ := hobj s0 (List.mem_cons_self s0 rest)
    subst hs0
    simp only [checkShots] at h
    cases hc : checkShot i (.obj skvs0) with
    | error e => rw [hc] at h; simp at h
    | ok o =>
      rw [hc] at h
      cases o with
      | some e => simp at h
      | none =>
        rcases List.mem_cons.mp hs with hs | hs
        · exact ⟨skvs0, hs, checkShot_none_filename i skvs0 hc⟩
        · exact ih (i + 1) (fun s' hs' => hobj s' (List.mem_cons_of_mem _ hs')) h s hs

/-- C5: the validator runs its checks in a fixed order, short-circuiting on
the first failure. With `project_name` present and `narrative_theme` absent
it reports the missing `narrative_theme` (whatever the state of `shots`);
with both present and `shots` absent it reports the missing `shots`; the
remaining conjuncts walk one concrete document through each later stage
(type of `shots`, emptiness, per-entry checks in index order, coverage
last). The spec names the keys `projectName`/`narrativeTheme`; the source
keys are `project_name`/`narrative_theme`. -/
theorem validator_check_order :
    (∀ kvs af, (lookupKey kvs "project_name").isSome = true →
      lookupKey kvs "narrative_theme" = none →
      validate_shot_list_format (.obj kvs) af =
        .ok (false, some "Missing required key: \x27narrative_theme\x27")) ∧
    (∀ kvs af, (lookupKey kvs "project_name").isSome = true →
      (lookupKey kvs "narrative_theme").isSome = true →
      lookupKey kvs "shots" = none →
      validate_shot_list_format (.obj kvs) af =
        .ok (false, some "Missing required key: \x27shots\x27")) ∧
    validate_shot_list_format (.obj [("project_name", .str "x")]) none =
      .ok (false, some "Missing required key: \x27narrative_theme\x27") ∧
    validate_shot_list_format
        (.obj [("project_name", .str "x"), ("narrative_theme", .str "y")]) none =
      .ok (false, some "Missing required key: \x27shots\x27") ∧
    validate_shot_list_format
        (.obj [("project_name", .str "x"), ("narrative_theme", .str "y"),
               ("shots", .num 0)]) none =
      .ok (false, some "\x27shots\x27 must be an array") ∧
    validate_shot_list_format
        (.obj [("project_name", .str "x"), ("narrative_theme", .str "y"),
               ("shots", .arr [])]) none =
      .ok (false, some "\x27shots\x27 array cannot be empty") ∧
    validate_shot_list_format
        (.obj [("project_name", .str "x"), ("narrative_theme", .str "y"),
               ("shots", .arr [.obj []])]) none =
      .ok (false, some "Shot 1 is missing required key: \x27filename\x27") ∧
    validate_shot_list_format (mkTimeDoc "00:00:01") (some ["a.mp4", "b.mp4"]) =
      .ok (false, some "Shot list is missing the following files: b.mp4") := by
  refine ⟨?_, ?_, rfl, rfl, rfl, rfl, rfl, rfl⟩
  · intro kvs af hp hnt
    unfold validate_shot_list_format
    simp [checkRequiredKeys, requiredKeys, pyIn, hp, hnt]
  · intro kvs af hp hnt hs
    unfold validate_shot_list_format
    simp [checkRequiredKeys, requiredKeys, pyIn, hp, hnt, hs]

theorem validator_check_order_witness :
    validate_shot_list_format
        (.obj [("narrative_theme", .str "y"), ("project_name", .str "x"),
               ("other", .null)]) (some ["a.mp4"]) =
      .ok (false, some "Missing required key: \x27shots\x27") :=
  validator_check_order.2.1 _ (some ["a.mp4"]) rfl rfl rfl

/-- C3 counterexample: the validator does raise for some inputs. A document
whose `shots` array contains the number `1` makes `"filename" not in shot`
raise `TypeError` (a number is not iterable), which escapes
`validate_shot_list_format`, so the claim that every input yields a
`(valid, error)` pair is false. -/
theorem validator_throws_on_non_mapping_entry :
    validate_shot_list_format
        (.obj [("project_name", .str "x"), ("narrative_theme", .str "y"),
               ("shots", .arr [.num 1])]) none =
      .error "TypeError: argument is not iterable" := rfl

/-- C3 (amended): the validator returns a `(valid, error)` pair — raises no
exception — for every document that is a mapping whose `shots` entries
(when `shots` holds an array) are all mappings; arbitrary missing keys,
wrong types and extra keys are reported, not thrown. -/
theorem validator_total_on_mappings (kvs : List (String × JVal))
    (af : Option (List String)) (hwf : entriesAllObjB kvs = true) :
    ∃ r, validate_shot_list_format (.obj kvs) af = .ok r := by
  obtain ⟨o, ho⟩ := checkRequiredKeys_obj kvs requiredKeys
  cases o with
  | some e => exact ⟨(false, some e), by simp [validate_shot_list_format, ho]⟩
  | none =>
    have hpres := checkRequiredKeys_none_mem kvs requiredKeys ho
    have hsh : (lookupKey kvs "shots").isSome = true :=
      hpres "shots" (by simp [requiredKeys])
    obtain ⟨sv, hsv⟩ := Option.isSome_iff_exists.mp hsh
    cases sv with
    | arr shots =>
      have hobj : ∀ s ∈ shots, ∃ skvs, s = JVal.obj skvs := by
        intro s hs
        have := hwf
        simp only [entriesAllObjB, hsv] at this
        have := List.all_eq_true.mp this s hs
        cases s <;> simp_all
      by_cases hlen : shots.length == 0
      · exact ⟨(false, some "\x27shots\x27 array cannot be empty"),
          by simp [validate_shot_list_format, ho, pyGetItem, hsv, hlen]⟩
      · obtain ⟨o2, ho2⟩ := checkShots_total shots 0 hobj
        cases o2 with
        | some e =>
          exact ⟨(false, some e),
            by simp [validate_shot_list_format, ho, pyGetItem, hsv, hlen, ho2]⟩
        | none =>
          cases af with
          | none =>
            exact ⟨(true, none),
              by simp [validate_shot_list_format, ho, pyGetItem, hsv, hlen, ho2]⟩
          | some fns =>
            by_cases hfns : fns.isEmpty
            · exact ⟨(true, none),
                by simp [validate_shot_list_format, ho, pyGetItem, hsv, hlen, ho2, hfns]⟩
            · obtain ⟨shot_filenames, hsf⟩ := getFilenames_total shots
                (checkShots_none_filenames shots 0 hobj ho2)
              by_cases hmiss : (fns.filter (fun f => !(strInList f shot_filenames))).isEmpty
              · exact ⟨(true, none), by
                  simp [validate_shot_list_format, ho, pyGetItem, hsv, hlen, ho2, hfns,
                    hsf, hmiss]⟩
              · exact ⟨(false, some ("Shot list is missing the following files: " ++
                    String.intercalate ", "
                      (fns.filter (fun f => !(strInList f shot_filenames))))), by
                  simp [validate_shot_list_format, ho, pyGetItem, hsv, hlen, ho2, hfns,
                    hsf, hmiss]⟩
    | str s =>
      exact ⟨(false, some "\x27shots\x27 must be an array"),
        by simp [validate_shot_list_format, ho, pyGetItem, hsv]⟩
    | num n =>
      exact ⟨(false, some "\x27shots\x27 must be an array"),
        by simp [validate_shot_list_format, ho, pyGetItem, hsv]⟩
    | bool b =>
      exact ⟨(false, some "\x27shots\x27 must be an array"),
        by simp [validate_shot_list_format, ho, pyGetItem, hsv]⟩
    | null =>
      exact ⟨(false, some "\x27shots\x27 must be an array"),
        by simp [validate_shot_list_format, ho, pyGetItem, hsv]⟩
    | obj okvs =>
      exact ⟨(false, some "\x27shots\x27 must be an array"),
        by simp [validate_shot_list_format, ho, pyGetItem, hsv]⟩

theorem validator_total_on_mappings_witness :
    ∃ r, validate_shot_list_format
        (.obj [("shots", .arr [.obj [("start_time", .bool true)], .obj []]),
               ("weird", .null)]) (some ["a.mp4"]) = .ok r :=
  validator_total_on_mappings _ (some ["a.mp4"]) rfl

theorem validate_mkTimeDoc (t : String) :
    validate_shot_list_format (mkTimeDoc t) none =
      vK (checkTimeKeys 0 (mkTimeShot t) timeKeys) := by
  have e1 : checkShotKeys 0 (mkTimeShot t) shotKeys = .ok none := rfl
  cases h : checkTimeKeys 0 (mkTimeShot t) timeKeys with
  | error e =>
    simp [validate_shot_list_format, mkTimeDoc, requiredKeys,
      checkRequiredKeys, pyIn, lookupKey, pyGetItem, checkShots, checkShot,
      e1, vK, h]
  | ok o =>
    cases o with
    | some e =>
      simp [validate_shot_list_format, mkTimeDoc, requiredKeys,
        checkRequiredKeys, pyIn, lookupKey, pyGetItem, checkShots, checkShot,
        e1, vK, h]
    | none =>
      simp [validate_shot_list_format, mkTimeDoc, requiredKeys,
        checkRequiredKeys, pyIn, lookupKey, pyGetItem, checkShots, checkShot,
        e1, vK, h]

theorem checkTime_iff (t : String) :
    (checkTimeKeys 0 (mkTimeShot t) timeKeys = .ok none) ↔ timeStringOk t = true := by
  have e2 : checkTimeKeys 0 (mkTimeShot t) ["end_time", "duration"] = .ok none := rfl
  have egi : pyGetItem (mkTimeShot t) "start_time" = .ok (.str t) := rfl
  rcases hps : pySplitStr ":" t with _ | ⟨p0, _ | ⟨p1, _ | ⟨p2, _ | rest⟩⟩⟩
  · simp [timeKeys, checkTimeKeys, egi, hps, timeStringOk]
  · simp [timeKeys, checkTimeKeys, egi, hps, timeStringOk]
  · simp [timeKeys, checkTimeKeys, egi, hps, timeStringOk]
  · rcases hp0 : pyParseInt p0 with e0 | h0
    · simp [timeKeys, checkTimeKeys, egi, hps, timeStringOk, hp0]
    · rcases hp1 : pyParseInt p1 with e1 | h1
      · simp [timeKeys, checkTimeKeys, egi, hps, timeStringOk, hp0, hp1]
      · rcases hp2 : pyParseInt p2 with e2' | h2
        · simp [timeKeys, checkTimeKeys, egi, hps, timeStringOk, hp0, hp1, hp2]
        · by_cases hr : (0 ≤ h0 ∧ 0 ≤ h1 ∧ h1 < 60 ∧ 0 ≤ h2 ∧ h2 < 60)
          · simp [timeKeys, checkTimeKeys, egi, hps, timeStringOk, hp0, hp1, hp2, hr, e2]
            rfl
          · simp [timeKeys, checkTimeKeys, egi, hps, timeStringOk, hp0, hp1, hp2, hr]
  · simp [timeKeys, checkTimeKeys, egi, hps, timeStringOk]

/-- C4: a time string in a shot entry is accepted by the validator exactly
when it splits into three colon-separated components that all parse as
integers, with hours non-negative and minutes and seconds in `[0, 60)`
(`timeStringOk` states this side condition in the spec's words); in
particular `"00:75:00"` is rejected by the range check — the minutes
component `"75"` parses fine but violates `minutes < 60` — with the
`contains invalid time values` message, while `"1:2:3"` (no leading zeros)
passes the integer parse and range checks and validates. -/
theorem validator_time_format :
    (∀ t, validate_shot_list_format (mkTimeDoc t) none = .ok (true, none) ↔
      timeStringOk t = true) ∧
    validate_shot_list_format (mkTimeDoc "00:75:00") none =
      .ok (false, some "Shot 1: \x27start_time\x27 contains invalid time values") ∧
    validate_shot_list_format (mkTimeDoc "1:2:3") none = .ok (true, none) ∧
    pySplitStr ":" "00:75:00" = ["00", "75", "00"] ∧
    pyParseInt "75" = .ok 75 ∧
    timeStringOk "00:75:00" = false ∧
    timeStringOk "1:2:3" = true := by
  refine ⟨?_, rfl, rfl, rfl, rfl, rfl, rfl⟩
  intro t
  have hv := validate_mkTimeDoc t
  constructor
  · intro h
    rw [hv] at h
    rcases hc : checkTimeKeys 0 (mkTimeShot t) timeKeys with e | o
    · rw [hc] at h; simp [vK] at h
    · cases o with
      | some e => rw [hc] at h; simp [vK] at h
      | none => exact (checkTime_iff t).mp hc
  · intro h
    rw [hv, (checkTime_iff t).mpr h]
    rfl

/-- C2 (code bug): every shot synthesized by the repair step carries
`end_time` and `duration` `"00:01:00"` even when the clip's formatted
duration is known. The code reads
`video_info.get("duration_formatted", "00:01:00")`, but the video-info
dictionaries built at lines 139-144 store the formatted duration under the
key `"duration"` and never contain `"duration_formatted"`, so the lookup
always yields the fallback (first conjunct). The third conjunct runs the
repair on a clip whose known formatted duration is `"00:00:42"` and shows
the synthesized entry still gets `"00:01:00"`; `start_time`, `transition_in`
and `transition_out` take their fixed values and `duration = end_time` as
claimed. -/
theorem repair_synth_entry_times :
    (∀ (vi : VideoInfo) (d : JVal), VideoInfo.get vi "duration_formatted" d = d) ∧
    (∀ f vi, synthEntry f vi =
      .obj [("filename", .str f),
            ("description", .str ("Added shot from " ++ f)),
            ("start_time", .str "00:00:00"),
            ("end_time", .str "00:01:00"),
            ("duration", .str "00:01:00"),
            ("transition_in", .str "cut"),
            ("transition_out", .str "cut")]) ∧
    repair (.obj [("shots", .arr [])]) ["b.mp4"]
        [⟨"b.mp4", "clip content", "00:00:42", 42⟩] =
      .ok (.obj [("shots", .arr [.obj
            [("filename", .str "b.mp4"),
             ("description", .str "Added shot from b.mp4"),
             ("start_time", .str "00:00:00"),
             ("end_time", .str "00:01:00"),
             ("duration", .str "00:01:00"),
             ("transition_in", .str "cut"),
             ("transition_out", .str "cut")]]),
          ("project_name", .str "Video Project"),
          ("narrative_theme", .str "Compilation of available footage")]) ∧
    (VideoInfo.mk "b.mp4" "clip content" "00:00:42" 42).duration = "00:00:42" := by
  refine ⟨fun vi d => rfl, fun f vi => ?_, rfl, rfl⟩
  simp [synthEntry, VideoInfo.get, VideoInfo.toPairs, lookupKey]
  show "Added shot from " ++ toString f ++ "" = "Added shot from " ++ f
  simp [String.append_empty]
  rfl

theorem pyIn_obj (k : String) (kvs : List (String × JVal)) :
    pyIn k (.obj kvs) = .ok (lookupKey kvs k).isSome := rfl

theorem pyGetItem_ok_obj {d : JVal} {k : String} {v : JVal}
    (h : pyGetItem d k = .ok v) :
    ∃ kvs, d = .obj kvs ∧ lookupKey kvs k = some v := by
  cases d with
  | obj kvs =>
    refine ⟨kvs, rfl, ?_⟩
    simp only [pyGetItem] at h
    cases hl : lookupKey kvs k with
    | none => rw [hl] at h; simp at h
    | some w => rw [hl] at h; simp at h; rw [h]
  | str s => simp [pyGetItem] at h
  | num n => simp [pyGetItem] at h
  | bool b => simp [pyGetItem] at h
  | null => simp [pyGetItem] at h
  | arr l => simp [pyGetItem] at h

theorem ensureKey_ok_cases {d d2 : JVal} {k : String} {v : JVal}
    (h : ensureKey d k v = .ok d2) :
    (d2 = d ∧ pyIn k d = .ok true) ∨
      (∃ kvs, d = .obj kvs ∧ (lookupKey kvs k).isSome = false ∧
        d2 = .obj (setPairs kvs k v)) := by
  simp only [ensureKey] at h
  cases hin : pyIn k d with
  | error e => rw [hin] at h; simp at h
  | ok b =>
    rw [hin] at h
    cases b with
    | true =>
      have hd : d2 = d := by simpa using h.symm
      exact .inl ⟨hd, rfl⟩
    | false =>
      right
      cases d with
      | obj kvs =>
        refine ⟨kvs, rfl, ?_, ?_⟩
        · simpa [pyIn_obj] using hin
        · simp only [pySetItem] at h
          simp at h
          exact h.symm
      | str s => simp [pySetItem] at h
      | num n => simp [pySetItem] at h
      | bool b => simp [pySetItem] at h
      | null => simp [pySetItem] at h
      | arr l => simp [pySetItem] at h

theorem ensureKey_gives {d d2 : JVal} {k : String} {v : JVal}
    (h : ensureKey d k v = .ok d2) : pyIn k d2 = .ok true := by
  rcases ensureKey_ok_cases h with ⟨he, hin⟩ | ⟨kvs, hd, hl, he⟩
  · exact he ▸ hin
  · subst he
    simp [pyIn_obj, lookupKey_setPairs_self]

theorem ensureKey_keeps {d d2 : JVal} {k k' : String} {v : JVal}
    (h : ensureKey d k' v = .ok d2) (hk : pyIn k d = .ok true) (hne : k ≠ k') :
    pyIn k d2 = .ok true := by
  rcases ensureKey_ok_cases h with ⟨he, _⟩ | ⟨kvs, hd, hl, he⟩
  · exact he ▸ hk
  · subst he; subst hd
    simpa [pyIn_obj, lookupKey_setPairs_ne _ _ _ _ hne] using hk

theorem ensureKey_of_has {d : JVal} {k : String} (v : JVal)
    (hk : pyIn k d = .ok true) : ensureKey d k v = .ok d := by
  simp [ensureKey, hk]

theorem getFilenames_append {l1 l2 : List JVal} {f1 f2 : List JVal}
    (h1 : getFilenames l1 = .ok f1) (h2 : getFilenames l2 = .ok f2) :
    getFilenames (l1 ++ l2) = .ok (f1 ++ f2) := by
  induction l1 generalizing f1 with
  | nil =>
    simp only [getFilenames] at h1
    simp at h1
    subst h1
    simpa using h2
  | cons s rest ih =>
    simp only [getFilenames] at h1 ⊢
    cases hg : pyGetItem s "filename" with
    | error e => rw [hg] at h1; simp at h1
    | ok v =>
      rw [hg] at h1
      cases hr : getFilenames rest with
      | error e => rw [hr] at h1; simp at h1
      | ok vs =>
        rw [hr] at h1
        simp at h1
        subst h1
        simp [List.cons_append, getFilenames, hg, ih hr]

theorem getFilenames_synth (infos : List VideoInfo) (missing : List String) :
    getFilenames (synthFor infos missing) = .ok (appendedNames infos missing) := by
  induction missing with
  | nil => rfl
  | cons f rest ih =>
    cases hf : infos.find? (fun v => v.filename == f) with
    | none => simp [appendedNames, synthFor, hf]; simpa [appendedNames, synthFor] using ih
    | some vi =>
      simp only [appendedNames, synthFor, List.filterMap_cons, hf, Option.map_some]
      have hfn : pyGetItem (synthEntry f vi) "filename" = .ok (.str f) := rfl
      simp only [getFilenames, hfn, appendedNames, synthFor] at ih ⊢
      rw [ih]
      rfl

theorem strInList_append (f : String) (a b : List JVal) :
    strInList f (a ++ b) = (strInList f a || strInList f b) := by
  simp [strInList, List.any_append]

theorem strInList_appendedNames {f : String} {infos : List VideoInfo}
    {missing : List String} (hm : f ∈ missing)
    (hf : (infos.find? (fun v => v.filename == f)).isSome = true) :
    strInList f (appendedNames infos missing) = true := by
  obtain ⟨vi, hvi⟩ := Option.isSome_iff_exists.mp hf
  have : JVal.str f ∈ appendedNames infos missing := by
    simp only [appendedNames, List.mem_filterMap]
    exact ⟨f, hm, by simp [hvi]⟩
  simp only [strInList, List.any_eq_true]
  exact ⟨JVal.str f, this, by simp [strEqJVal]⟩

/-- C6: the repair step is idempotent — when a first repair run succeeds and
returns a document, running repair again on that document with the same
filename list and clip info returns it unchanged (in particular the `shots`
sequence is the same and no duplicate synthesized entries appear): every
identifier still missing after the first pass is missing precisely because
it has no clip-info record, so the second pass appends nothing. -/
theorem repair_idempotent (doc : JVal) (F : List String) (infos : List VideoInfo) (d' : JVal)
    (h : repair doc F infos = .ok d') : repair d' F infos = .ok d' := by
  unfold repair at h
  split at h
  case _ e h1 => simp at h
  case _ d1 h1 =>
  split at h
  case _ e h2 => simp at h
  case _ d2 h2 =>
  split at h
  case _ e h3 => simp at h
  case _ d3 h3 =>
  have p3 : pyIn "narrative_theme" d3 = .ok true := ensureKey_gives h3
  have p2 : pyIn "project_name" d3 = .ok true :=
    ensureKey_keeps h3 (ensureKey_gives h2) (by decide)
  have p1 : pyIn "shots" d3 = .ok true :=
    ensureKey_keeps h3 (ensureKey_keeps h2 (ensureKey_gives h1) (by decide)) (by decide)
  by_cases hF : F.isEmpty
  · rw [if_pos hF] at h
    have hd : d' = d3 := by simpa using h.symm
    subst hd
    simp [repair, ensureKey_of_has _ p1, ensureKey_of_has _ p2, ensureKey_of_has _ p3, hF]
  · rw [if_neg hF] at h
    split at h
    case _ e h4 => simp at h
    case _ shotsVal h4 =>
    split at h
    case _ e h5 => simp at h
    case _ shotsList h5 =>
    split at h
    case _ e h6 => simp at h
    case _ fns h6 =>
    by_cases hne : (synthFor infos (F.filter (fun f => !(strInList f fns)))).isEmpty
    · rw [if_pos hne] at h
      have hd : d' = d3 := by simpa using h.symm
      subst hd
      simp [repair, ensureKey_of_has _ p1, ensureKey_of_has _ p2, ensureKey_of_has _ p3,
        hF, h4, h5, h6, hne]
    · rw [if_neg hne] at h
      obtain ⟨kvs3, hd3, hl3⟩ := pyGetItem_ok_obj h4
      subst hd3
      cases shotsVal with
      | str s => simp at h
      | num n => simp at h
      | bool b => simp at h
      | null => simp at h
      | obj kvs => simp at h
      | arr l =>
        have hlst : shotsList = l := by simpa [pyIter] using h5.symm
        subst hlst
        simp only [pySetItem] at h
        have hd : d' = JVal.obj (setPairs kvs3 "shots"
            (.arr (shotsList ++ synthFor infos (F.filter (fun f => !(strInList f fns)))))) := by
          simpa using h.symm
        subst hd
        have pk2 : (lookupKey kvs3 "project_name").isSome = true := by
          have hx := p2
          rw [pyIn_obj] at hx
          simpa using hx
        have pk3 : (lookupKey kvs3 "narrative_theme").isSome = true := by
          have hx := p3
          rw [pyIn_obj] at hx
          simpa using hx
        have q1 : pyIn "shots" (JVal.obj (setPairs kvs3 "shots"
            (.arr (shotsList ++ synthFor infos (F.filter (fun f => !(strInList f fns))))))) =
            .ok true := by
          simp [pyIn_obj, lookupKey_setPairs_self]
        have q2 : pyIn "project_name" (JVal.obj (setPairs kvs3 "shots"
            (.arr (shotsList ++ synthFor infos (F.filter (fun f => !(strInList f fns))))))) =
            .ok true := by
          simp [pyIn_obj,
            lookupKey_setPairs_ne _ _ _ _ (by decide : "project_name" ≠ "shots"), pk2]
        have q3 : pyIn "narrative_theme" (JVal.obj (setPairs kvs3 "shots"
            (.arr (shotsList ++ synthFor infos (F.filter (fun f => !(strInList f fns))))))) =
            .ok true := by
          simp [pyIn_obj,
            lookupKey_setPairs_ne _ _ _ _ (by decide : "narrative_theme" ≠ "shots"), pk3]
        have g4 : pyGetItem (JVal.obj (setPairs kvs3 "shots"
            (.arr (shotsList ++ synthFor infos (F.filter (fun f => !(strInList f fns))))))) "shots" =
            .ok (.arr (shotsList ++ synthFor infos (F.filter (fun f => !(strInList f fns))))) := by
          simp [pyGetItem, lookupKey_setPairs_self]
        have g6 : getFilenames (shotsList ++ synthFor infos (F.filter (fun f => !(strInList f fns)))) =
            .ok (fns ++ appendedNames infos (F.filter (fun f => !(strInList f fns)))) :=
          getFilenames_append h6 (getFilenames_synth infos _)
        have hsecond : synthFor infos (F.filter (fun f =>
            !(strInList f (fns ++ appendedNames infos (F.filter (fun f => !(strInList f fns))))))) = [] := by
          refine List.filterMap_eq_nil_iff.mpr ?_
          intro f hf
          simp only [List.mem_filter] at hf
          obtain ⟨hfF, hnotin⟩ := hf
          rw [strInList_append] at hnotin
          have ha1 : strInList f fns = false := by
            cases hx : strInList f fns
            · rfl
            · rw [hx] at hnotin; simp at hnotin
          have ha2 : strInList f (appendedNames infos (F.filter (fun f => !(strInList f fns)))) = false := by
            cases hx : strInList f (appendedNames infos (F.filter (fun f => !(strInList f fns))))
            · rfl
            · rw [hx] at hnotin; simp at hnotin
          cases hfind : infos.find? (fun v => v.filename == f) with
          | none => simp [hfind]
          | some vi =>
            exfalso
            have hmem : f ∈ F.filter (fun f => !(strInList f fns)) :=
              List.mem_filter.mpr (by simp [hfF, ha1])
            have hin := strInList_appendedNames hmem (by rw [hfind]; rfl)
            rw [ha2] at hin
            exact Bool.false_ne_true hin
        have hFf : F.isEmpty = false := by simpa using hF
        have hpyit : pyIter (JVal.arr (shotsList ++ synthFor infos
            (F.filter (fun f => !(strInList f fns))))) =
            .ok (shotsList ++ synthFor infos (F.filter (fun f => !(strInList f fns)))) := rfl
        have hEmpty : (synthFor infos (F.filter (fun f =>
            !(strInList f (fns ++ appendedNames infos
              (F.filter (fun f => !(strInList f fns)))))))).isEmpty = true := by
          rw [hsecond]; rfl
        simp only [repair, ensureKey_of_has (JVal.arr []) q1,
          ensureKey_of_has (JVal.str "Video Project") q2,
          ensureKey_of_has (JVal.str "Compilation of available footage") q3,
          hFf, Bool.false_eq_true, if_false, g4, hpyit, g6, hEmpty, if_true]


theorem repair_idempotent_witness :
    repair
        (.obj [("shots", .arr [.obj
              [("filename", .str "a.mp4"),
               ("description", .str "Added shot from a.mp4"),
               ("start_time", .str "00:00:00"),
               ("end_time", .str "00:01:00"),
               ("duration", .str "00:01:00"),
               ("transition_in", .str "cut"),
               ("transition_out", .str "cut")]]),
            ("project_name", .str "Video Project"),
            ("narrative_theme", .str "Compilation of available footage")])
        ["a.mp4", "b.mp4"] [⟨"a.mp4", "c", "00:00:05", 5⟩] =
      .ok (.obj [("shots", .arr [.obj
              [("filename", .str "a.mp4"),
               ("description", .str "Added shot from a.mp4"),
               ("start_time", .str "00:00:00"),
               ("end_time", .str "00:01:00"),
               ("duration", .str "00:01:00"),
               ("transition_in", .str "cut"),
               ("transition_out", .str "cut")]]),
            ("project_name", .str "Video Project"),
            ("narrative_theme", .str "Compilation of available footage")]) :=
  repair_idempotent (.obj [("shots", .arr [])]) ["a.mp4", "b.mp4"]
    [⟨"a.mp4", "c", "00:00:05", 5⟩] _ rfl

theorem strInList_true_mem {f : String} {l : List JVal} (h : strInList f l = true) :
    JVal.str f ∈ l := by
  simp only [strInList, List.any_eq_true] at h
  obtain ⟨v, hv, he⟩ := h
  cases v <;> simp [strEqJVal] at he
  case str s => rw [he]; exact hv

theorem getFilenames_mem {l : List JVal} {fns : List JVal}
    (h : getFilenames l = .ok fns) {v : JVal} (hv : v ∈ fns) :
    v ∈ l.filterMap entryName := by
  induction l generalizing fns with
  | nil =>
    simp only [getFilenames] at h
    simp at h
    subst h
    cases hv
  | cons s rest ih =>
    simp only [getFilenames] at h
    cases hg : pyGetItem s "filename" with
    | error e => rw [hg] at h; simp at h
    | ok v0 =>
      rw [hg] at h
      cases hr : getFilenames rest with
      | error e => rw [hr] at h; simp at h
      | ok vs =>
        rw [hr] at h
        simp at h
        subst h
        obtain ⟨skvs, hs, hl⟩ := pyGetItem_ok_obj hg
        subst hs
        rcases List.mem_cons.mp hv with hv | hv
        · subst hv
          exact List.mem_filterMap.mpr ⟨.obj skvs, List.mem_cons_self _ _, by simp [entryName, hl]⟩
        · have hfc : List.filterMap entryName (JVal.obj skvs :: rest) =
              v0 :: List.filterMap entryName rest := by
            simp [List.filterMap_cons, entryName, hl]
          rw [hfc]
          exact List.mem_cons_of_mem _ (ih hr hv)

theorem synthFor_empty_find {infos : List VideoInfo} {ms : List String}
    (h : synthFor infos ms = []) {f : String} (hf : f ∈ ms) :
    infos.find? (fun v => v.filename == f) = none := by
  have := List.filterMap_eq_nil_iff.mp h f hf
  cases hfind : infos.find? (fun v => v.filename == f) with
  | none => rfl
  | some vi => rw [hfind] at this; simp at this

/-- C1 (amended): after a successful repair run, every identifier of
`all_filenames` that has a matching clip-info record appears among the
repaired document's `shots[*].filename` values — the repaired filename set
is a superset of the intersection of `F` with the clip-info domain.
Identifiers without a clip-info record are skipped by the
`if video_info:` guard, so the unconditional superset of the original claim
fails (see the counterexample). -/
theorem repair_completeness_known (doc : JVal) (F : List String)
    (infos : List VideoInfo) (d' : JVal) (h : repair doc F infos = .ok d') :
    ∀ f ∈ F, (infos.find? (fun v => v.filename == f)).isSome = true →
      JVal.str f ∈ filenamesOf d' := by
  intro f hfF hfind
  unfold repair at h
  split at h
  case _ e h1 => simp at h
  case _ d1 h1 =>
  split at h
  case _ e h2 => simp at h
  case _ d2 h2 =>
  split at h
  case _ e h3 => simp at h
  case _ d3 h3 =>
  by_cases hF : F.isEmpty
  · rw [List.isEmpty_iff.mp hF] at hfF
    cases hfF
  · rw [if_neg hF] at h
    split at h
    case _ e h4 => simp at h
    case _ shotsVal h4 =>
    split at h
    case _ e h5 => simp at h
    case _ shotsList h5 =>
    split at h
    case _ e h6 => simp at h
    case _ fns h6 =>
    obtain ⟨kvs3, hd3, hl3⟩ := pyGetItem_ok_obj h4
    subst hd3
    by_cases hfns : strInList f fns
    · -- the identifier is already present among the existing shots
      have hmemfns : JVal.str f ∈ fns := strInList_true_mem hfns
      by_cases hne : (synthFor infos (F.filter (fun g => !(strInList g fns)))).isEmpty
      · rw [if_pos hne] at h
        have hd : d' = JVal.obj kvs3 := by simpa using h.symm
        subst hd
        cases shotsVal with
        | arr l =>
          have hlst : shotsList = l := by simpa [pyIter] using h5.symm
          subst hlst
          simp only [filenamesOf, shotsOf, hl3]
          exact getFilenames_mem h6 hmemfns
        | str s =>
          cases hsd : s.data with
          | nil =>
            have hlst : shotsList = [] := by
              have := h5.symm
              simp only [pyIter, hsd] at this
              simpa using this
            subst hlst
            simp only [getFilenames] at h6
            have : fns = [] := by simpa using h6.symm
            subst this
            cases hmemfns
          | cons c cs =>
            have h5x := h5
            simp only [pyIter, hsd] at h5x
            have hlst : JVal.str (String.mk [c]) :: cs.map (fun c => JVal.str (String.mk [c])) =
                shotsList := by
              simpa using h5x
            rw [← hlst] at h6
            simp [getFilenames, pyGetItem] at h6
        | obj okvs =>
          cases okvs with
          | nil =>
            have hlst : shotsList = [] := by
              have := h5.symm
              simp only [pyIter] at this
              simpa using this
            subst hlst
            simp only [getFilenames] at h6
            have : fns = [] := by simpa using h6.symm
            subst this
            cases hmemfns
          | cons p ps =>
            have h5x := h5
            simp only [pyIter] at h5x
            have hlst : JVal.str p.1 :: ps.map (fun q => JVal.str q.1) = shotsList := by
              simpa using h5x
            rw [← hlst] at h6
            simp [getFilenames, pyGetItem] at h6
        | num n => simp [pyIter] at h5
        | bool b => simp [pyIter] at h5
        | null => simp [pyIter] at h5
      · rw [if_neg hne] at h
        cases shotsVal with
        | str s => simp at h
        | num n => simp at h
        | bool b => simp at h
        | null => simp at h
        | obj okvs => simp at h
        | arr l =>
          have hlst : shotsList = l := by simpa [pyIter] using h5.symm
          subst hlst
          simp only [pySetItem] at h
          have hd : d' = JVal.obj (setPairs kvs3 "shots"
              (.arr (shotsList ++ synthFor infos (F.filter (fun g => !(strInList g fns)))))) := by
            simpa using h.symm
          subst hd
          simp only [filenamesOf, shotsOf, lookupKey_setPairs_self, List.filterMap_append]
          exact List.mem_append_left _ (getFilenames_mem h6 hmemfns)
    · -- the identifier is missing; with clip info present it must be appended
      have hfnsf : strInList f fns = false := by simpa using hfns
      have hmiss : f ∈ F.filter (fun g => !(strInList g fns)) :=
        List.mem_filter.mpr ⟨hfF, by simp [hfnsf]⟩
      by_cases hne : (synthFor infos (F.filter (fun g => !(strInList g fns)))).isEmpty
      · exfalso
        have := synthFor_empty_find (List.isEmpty_iff.mp (by simpa using hne)) hmiss
        rw [this] at hfind
        simp at hfind
      · rw [if_neg hne] at h
        cases shotsVal with
        | str s => simp at h
        | num n => simp at h
        | bool b => simp at h
        | null => simp at h
        | obj okvs => simp at h
        | arr l =>
          have hlst : shotsList = l := by simpa [pyIter] using h5.symm
          subst hlst
          simp only [pySetItem] at h
          have hd : d' = JVal.obj (setPairs kvs3 "shots"
              (.arr (shotsList ++ synthFor infos (F.filter (fun g => !(strInList g fns)))))) := by
            simpa using h.symm
          subst hd
          simp only [filenamesOf, shotsOf, lookupKey_setPairs_self, List.filterMap_append]
          refine List.mem_append_right _ ?_
          obtain ⟨vi, hvi⟩ := Option.isSome_iff_exists.mp hfind
          refine List.mem_filterMap.mpr ⟨synthEntry f vi, ?_, ?_⟩
          · exact List.mem_filterMap.mpr ⟨f, hmiss, by simp [hvi]⟩
          · rfl

/-- C1 counterexample: the claim's unconditional superset fails. With
`F = ["a.mp4"]` and no clip-info record for it, the repair step appends
nothing (`if video_info:` fails), so `"a.mp4"` is absent from the repaired
document's filename set. -/
theorem repair_completeness_counterexample :
    repair (.obj [("shots", .arr [])]) ["a.mp4"] [] =
      .ok (.obj [("shots", .arr []),
            ("project_name", .str "Video Project"),
            ("narrative_theme", .str "Compilation of available footage")]) ∧
    ¬ (JVal.str "a.mp4" ∈ filenamesOf (.obj [("shots", .arr []),
            ("project_name", .str "Video Project"),
            ("narrative_theme", .str "Compilation of available footage")])) := by
  refine ⟨rfl, ?_⟩
  simp [filenamesOf, shotsOf, lookupKey]

theorem repair_completeness_known_witness :
    JVal.str "a.mp4" ∈ filenamesOf (.obj [("shots", .arr [.obj
          [("filename", .str "a.mp4"),
           ("description", .str "Added shot from a.mp4"),
           ("start_time", .str "00:00:00"),
           ("end_time", .str "00:01:00"),
           ("duration", .str "00:01:00"),
           ("transition_in", .str "cut"),
           ("transition_out", .str "cut")]]),
        ("project_name", .str "Video Project"),
        ("narrative_theme", .str "Compilation of available footage")]) :=
  repair_completeness_known (.obj [("shots", .arr [])]) ["a.mp4"]
    [⟨"a.mp4", "c", "00:00:05", 5⟩] _ rfl "a.mp4" (by simp) rfl

theorem lookup_ensured_self (kvs : List (String × JVal)) (k : String) (v : JVal) :
    lookupKey (ensuredPairs kvs k v) k = some ((lookupKey kvs k).getD v) := by
  cases h : lookupKey kvs k <;> simp [ensuredPairs, h, lookupKey_setPairs_self]

theorem lookup_ensured_ne (kvs : List (String × JVal)) (k k' : String) (v : JVal)
    (hne : k' ≠ k) : lookupKey (ensuredPairs kvs k v) k' = lookupKey kvs k' := by
  cases h : lookupKey kvs k <;> simp [ensuredPairs, h, lookupKey_setPairs_ne _ _ _ _ hne]

theorem ensureKey_obj_eq (kvs : List (String × JVal)) (k : String) (v : JVal) :
    ensureKey (.obj kvs) k v = .ok (.obj (ensuredPairs kvs k v)) := by
  cases h : lookupKey kvs k <;> simp [ensureKey, pyIn_obj, pySetItem, ensuredPairs, h]

theorem entryHasFilenameB_shape {s : JVal} (h : entryHasFilenameB s = true) :
    ∃ skvs, s = JVal.obj skvs ∧ (lookupKey skvs "filename").isSome = true := by
  cases s <;> simp [entryHasFilenameB] at h
  case obj skvs => exact ⟨skvs, rfl, h⟩

/-- C7 (amended): for every mapping document whose `shots` value, when the
key is present, is an array of mappings each carrying a `filename` key, the
repair step completes and returns a mapping; an absent `projectName` /
`narrativeTheme` is initialized to its fixed fallback literal (and a present
one is kept), the resulting `shots` value is always an array, and an absent
`shots` key with an empty filename list is initialized to the empty
sequence. A document with a malformed entry makes the comprehension
`[shot["filename"] for shot in shots]` raise `KeyError`, so the
unconditional totality of the original claim fails (see the
counterexample). -/
theorem repair_total_wellformed (kvs : List (String × JVal)) (F : List String)
    (infos : List VideoInfo) (hwf : shotsWellFormedB kvs = true) :
    ∃ kvs', repair (.obj kvs) F infos = .ok (.obj kvs') ∧
      lookupKey kvs' "project_name" =
        some ((lookupKey kvs "project_name").getD (.str "Video Project")) ∧
      lookupKey kvs' "narrative_theme" =
        some ((lookupKey kvs "narrative_theme").getD
          (.str "Compilation of available footage")) ∧
      (∃ l, lookupKey kvs' "shots" = some (.arr l)) ∧
      (lookupKey kvs "shots" = none → F = [] →
        lookupKey kvs' "shots" = some (.arr [])) := by
  have hpn1 : lookupKey (ensuredPairs kvs "shots" (.arr [])) "project_name" =
      lookupKey kvs "project_name" :=
    lookup_ensured_ne _ _ _ _ (by decide)
  have hnt1 : lookupKey (ensuredPairs kvs "shots" (.arr [])) "narrative_theme" =
      lookupKey kvs "narrative_theme" :=
    lookup_ensured_ne _ _ _ _ (by decide)
  set kvs1 := ensuredPairs kvs "shots" (.arr []) with hkvs1
  set kvs2 := ensuredPairs kvs1 "project_name" (.str "Video Project") with hkvs2
  set kvs3 := ensuredPairs kvs2 "narrative_theme"
    (.str "Compilation of available footage") with hkvs3
  have hpn : lookupKey kvs3 "project_name" =
      some ((lookupKey kvs "project_name").getD (.str "Video Project")) := by
    rw [hkvs3, lookup_ensured_ne _ _ _ _ (by decide), hkvs2, lookup_ensured_self, hpn1]
  have hnt : lookupKey kvs3 "narrative_theme" =
      some ((lookupKey kvs "narrative_theme").getD
        (.str "Compilation of available footage")) := by
    rw [hkvs3, lookup_ensured_self, hkvs2, lookup_ensured_ne _ _ _ _ (by decide), hnt1]
  have hsh : lookupKey kvs3 "shots" = some ((lookupKey kvs "shots").getD (.arr [])) := by
    rw [hkvs3, lookup_ensured_ne _ _ _ _ (by decide), hkvs2,
      lookup_ensured_ne _ _ _ _ (by decide), hkvs1, lookup_ensured_self]
  obtain ⟨l0, hl0, hent⟩ :
      ∃ l0, (lookupKey kvs "shots").getD (.arr []) = .arr l0 ∧
        (∀ s ∈ l0, entryHasFilenameB s = true) ∧
        (lookupKey kvs "shots" = none → l0 = []) := by
    cases hk : lookupKey kvs "shots" with
    | none => exact ⟨[], rfl, by simp, fun _ => rfl⟩
    | some sv =>
      cases sv with
      | arr l =>
        refine ⟨l, rfl, ?_, by simp⟩
        simp only [shotsWellFormedB, hk] at hwf
        exact List.all_eq_true.mp hwf
      | str s => simp [shotsWellFormedB, hk] at hwf
      | num n => simp [shotsWellFormedB, hk] at hwf
      | bool b => simp [shotsWellFormedB, hk] at hwf
      | null => simp [shotsWellFormedB, hk] at hwf
      | obj o => simp [shotsWellFormedB, hk] at hwf
  obtain ⟨hent, hnil⟩ := hent
  have hshl : lookupKey kvs3 "shots" = some (.arr l0) := by rw [hsh, hl0]
  have hfnames : ∃ fns, getFilenames l0 = .ok fns :=
    getFilenames_total l0 (fun s hs => entryHasFilenameB_shape (hent s hs))
  obtain ⟨fns, hfns⟩ := hfnames
  simp only [repair, ensureKey_obj_eq, ← hkvs1, ← hkvs2, ← hkvs3]
  by_cases hF : F.isEmpty
  · rw [if_pos hF]
    exact ⟨kvs3, rfl, hpn, hnt, ⟨l0, hshl⟩,
      fun hnone _ => by rw [hshl, hnil hnone]⟩
  · rw [if_neg hF]
    have hget : pyGetItem (.obj kvs3) "shots" = .ok (.arr l0) := by
      simp [pyGetItem, hshl]
    rw [hget]
    simp only [pyIter]
    simp only [hfns]
    by_cases hne : (synthFor infos (F.filter (fun f => !(strInList f fns)))).isEmpty
    · rw [if_pos hne]
      refine ⟨kvs3, rfl, hpn, hnt, ⟨l0, hshl⟩, fun _ hFnil => ?_⟩
      rw [hFnil] at hF
      simp at hF
    · rw [if_neg hne]
      simp only [pySetItem]
      refine ⟨setPairs kvs3 "shots"
          (.arr (l0 ++ synthFor infos (F.filter (fun f => !(strInList f fns))))),
        rfl, ?_, ?_, ?_, fun _ hFnil => ?_⟩
      · rw [lookupKey_setPairs_ne _ _ _ _ (by decide), hpn]
      · rw [lookupKey_setPairs_ne _ _ _ _ (by decide), hnt]
      · exact ⟨_, lookupKey_setPairs_self _ _ _⟩
      · rw [hFnil] at hF
        simp at hF

/-- C7 counterexample: the repair step does fail on some documents. An
existing shot entry without a `filename` key makes the comprehension
`[shot["filename"] for shot in shot_list["shots"]]` raise `KeyError`
(caught only by the generator's outer catch-all, which abandons the
document), so repair as claimed — total for arbitrarily malformed entries —
is false. -/
theorem repair_throws_on_entry_without_filename :
    repair (.obj [("shots", .arr [.obj [("description", .str "d")]])])
        ["a.mp4"] [] = .error "KeyError: filename" := rfl

theorem repair_total_wellformed_witness :
    ∃ kvs', repair (.obj [("shots", .arr [.obj [("filename", .str "a.mp4")]])])
        ["a.mp4", "b.mp4"] [] = .ok (.obj kvs') ∧
      lookupKey kvs' "project_name" = some (.str "Video Project") ∧
      lookupKey kvs' "narrative_theme" = some (.str "Compilation of available footage") ∧
      (∃ l, lookupKey kvs' "shots" = some (.arr l)) ∧
      (lookupKey [("shots", JVal.arr [.obj [("filename", JVal.str "a.mp4")]])] "shots" = none →
        ["a.mp4", "b.mp4"] = ([] : List String) →
        lookupKey kvs' "shots" = some (.arr [])) :=
  repair_total_wellformed _ _ _ rfl

theorem splitFirst_nil {pat : List Char} (h : pat ≠ []) : splitFirst pat [] = none := by
  simp [splitFirst, h]

theorem splitFirst_cons (pat : List Char) (c : Char) (xs : List Char) :
    splitFirst pat (c :: xs) =
      if startsWithL pat (c :: xs) then some ([], (c :: xs).drop pat.length)
      else (splitFirst pat xs).map (fun p => (c :: p.1, p.2)) := rfl

theorem startsWithL_self_append (p r : List Char) : startsWithL p (p ++ r) = true := by
  induction p with
  | nil => rfl
  | cons c cs ih => simp [startsWithL, ih]

theorem startsWithL_append_mono {a b s : List Char}
    (h : startsWithL (a ++ b) s = true) : startsWithL a s = true := by
  induction a generalizing s with
  | nil => rfl
  | cons c cs ih =>
    cases s with
    | nil => simp [startsWithL] at h
    | cons x xs =>
      simp only [List.cons_append, startsWithL, Bool.and_eq_true] at h ⊢
      exact ⟨h.1, ih h.2⟩

theorem splitFirst_self_start {pat : List Char} (h : pat ≠ []) (rest : List Char) :
    splitFirst pat (pat ++ rest) = some ([], rest) := by
  cases pat with
  | nil => exact absurd rfl h
  | cons c cs =>
    have hsw := startsWithL_self_append (c :: cs) rest
    rw [List.cons_append] at hsw ⊢
    rw [splitFirst_cons, if_pos hsw, ← List.cons_append, List.drop_left]

theorem splitFirst_skip_none {pat : List Char} {hd : Char}
    (hpat : pat.head? = some hd) {pre rest : List Char}
    (hpre : ∀ c ∈ pre, c ≠ hd) (h : splitFirst pat rest = none) :
    splitFirst pat (pre ++ rest) = none := by
  obtain ⟨t, hp⟩ : ∃ t, pat = hd :: t := by
    cases pat with
    | nil => simp at hpat
    | cons a as => simp at hpat; exact ⟨as, by rw [hpat]⟩
  induction pre with
  | nil => simpa using h
  | cons c cs ih =>
    have hc : c ≠ hd := hpre c (List.mem_cons_self c cs)
    have hsw : ¬ (startsWithL pat (c :: (cs ++ rest)) = true) := by
      simp only [hp, startsWithL, Bool.and_eq_true, beq_iff_eq]
      rintro ⟨he, -⟩
      exact hc he.symm
    rw [List.cons_append, splitFirst_cons, if_neg hsw,
      ih (fun x hx => hpre x (List.mem_cons_of_mem _ hx))]
    rfl

theorem splitFirst_skip_some {pat : List Char} {hd : Char}
    (hpat : pat.head? = some hd) {pre rest a b : List Char}
    (hpre : ∀ c ∈ pre, c ≠ hd) (h : splitFirst pat rest = some (a, b)) :
    splitFirst pat (pre ++ rest) = some (pre ++ a, b) := by
  obtain ⟨t, hp⟩ : ∃ t, pat = hd :: t := by
    cases pat with
    | nil => simp at hpat
    | cons x as => simp at hpat; exact ⟨as, by rw [hpat]⟩
  induction pre with
  | nil => simpa using h
  | cons c cs ih =>
    have hc : c ≠ hd := hpre c (List.mem_cons_self c cs)
    have hsw : ¬ (startsWithL pat (c :: (cs ++ rest)) = true) := by
      simp only [hp, startsWithL, Bool.and_eq_true, beq_iff_eq]
      rintro ⟨he, -⟩
      exact hc he.symm
    rw [List.cons_append, splitFirst_cons, if_neg hsw,
      ih (fun x hx => hpre x (List.mem_cons_of_mem _ hx))]
    rfl

theorem splitFirst_none_noHead {pat : List Char} {hd : Char}
    (hpat : pat.head? = some hd) {s : List Char} (hs : ∀ c ∈ s, c ≠ hd) :
    splitFirst pat s = none := by
  have hne : pat ≠ [] := by
    intro hnil
    rw [hnil] at hpat
    simp at hpat
  have := splitFirst_skip_none hpat hs (splitFirst_nil hne)
  simpa using this

theorem splitFirst_length {pat : List Char} (hpat : pat ≠ []) :
    ∀ {s a b : List Char}, splitFirst pat s = some (a, b) → b.length < s.length := by
  intro s
  induction s with
  | nil => intro a b h; rw [splitFirst_nil hpat] at h; cases h
  | cons c cs ih =>
    intro a b h
    rw [splitFirst_cons] at h
    by_cases hsw : startsWithL pat (c :: cs) = true
    · rw [if_pos hsw] at h
      simp only [Option.some.injEq, Prod.mk.injEq] at h
      have hplen : 1 ≤ pat.length := by
        cases pat
        · exact absurd rfl hpat
        · simp
      rw [← h.2]
      simp only [List.length_drop, List.length_cons]
      omega
    · rw [if_neg hsw] at h
      cases hrec : splitFirst pat cs with
      | none => rw [hrec] at h; cases h
      | some p =>
        obtain ⟨a0, b0⟩ := p
        rw [hrec] at h
        simp only [Option.map_some', Option.some.injEq, Prod.mk.injEq] at h
        have hlt := ih hrec
        rw [← h.2]
        simp only [List.length_cons]
        omega

theorem splitFirst_jsonFence_tail_none {body post : List Char}
    (hb : ∀ c ∈ body, c ≠ backtick) (hp : ∀ c ∈ post, c ≠ backtick)
    (hpj : startsWithL jsonWord post = false) :
    splitFirst jsonFence (body ++ (tripleTick ++ post)) = none := by
  induction body with
  | nil =>
    have hsw1 : startsWithL jsonFence (backtick :: backtick :: backtick :: post) = false := by
      show startsWithL (backtick :: backtick :: backtick :: jsonWord)
        (backtick :: backtick :: backtick :: post) = false
      simp [startsWithL, hpj]
    have hsw2 : startsWithL jsonFence (backtick :: backtick :: post) = false := by
      show startsWithL (backtick :: backtick :: backtick :: jsonWord)
        (backtick :: backtick :: post) = false
      cases post with
      | nil => simp [startsWithL]
      | cons p ps =>
        have hpne : p ≠ backtick := hp p (List.mem_cons_self p ps)
        simp [startsWithL]
        intro he
        exact absurd he.symm hpne
    have hsw3 : startsWithL jsonFence (backtick :: post) = false := by
      show startsWithL (backtick :: backtick :: backtick :: jsonWord)
        (backtick :: post) = false
      cases post with
      | nil => simp [startsWithL]
      | cons p ps =>
        have hpne : p ≠ backtick := hp p (List.mem_cons_self p ps)
        simp [startsWithL]
        intro he
        exact absurd he.symm hpne
    rw [List.nil_append,
      show (tripleTick ++ post : List Char) = backtick :: backtick :: backtick :: post from rfl]
    rw [splitFirst_cons, if_neg (by simp [hsw1])]
    rw [splitFirst_cons, if_neg (by simp [hsw2])]
    rw [splitFirst_cons, if_neg (by simp [hsw3])]
    rw [splitFirst_none_noHead (show jsonFence.head? = some backtick from rfl) hp]
    rfl
  | cons c cs ih =>
    have hc : c ≠ backtick := hb c (List.mem_cons_self c cs)
    have hsw : ¬ startsWithL jsonFence (c :: (cs ++ (tripleTick ++ post))) = true := by
      show ¬ startsWithL (backtick :: backtick :: backtick :: jsonWord) _ = true
      simp [startsWithL]
      intro he
      exact absurd he.symm hc
    rw [List.cons_append, splitFirst_cons, if_neg hsw,
      ih (fun x hx => hb x (List.mem_cons_of_mem _ hx))]
    rfl

theorem splitFirst_jsonFence_generic_none {body post : List Char}
    (hb : ∀ c ∈ body, c ≠ backtick) (hp : ∀ c ∈ post, c ≠ backtick)
    (hbj : startsWithL jsonWord (body ++ (tripleTick ++ post)) = false)
    (hpj : startsWithL jsonWord post = false) :
    splitFirst jsonFence (tripleTick ++ (body ++ (tripleTick ++ post))) = none := by
  have hX1 : startsWithL (backtick :: jsonWord) (body ++ (tripleTick ++ post)) = false := by
    cases body with
    | cons c cs =>
      have hc : c ≠ backtick := hb c (List.mem_cons_self c cs)
      rw [List.cons_append]
      simp [startsWithL]
      intro he
      exact absurd he.symm hc
    | nil =>
      rw [List.nil_append,
        show (tripleTick ++ post : List Char) = backtick :: backtick :: backtick :: post from rfl]
      simp [startsWithL, jsonWord]
      intro hj
      exact absurd hj (by decide)
  have hX2 : startsWithL (backtick :: backtick :: jsonWord) (body ++ (tripleTick ++ post)) = false := by
    cases body with
    | cons c cs =>
      have hc : c ≠ backtick := hb c (List.mem_cons_self c cs)
      rw [List.cons_append]
      simp [startsWithL]
      intro he
      exact absurd he.symm hc
    | nil =>
      rw [List.nil_append,
        show (tripleTick ++ post : List Char) = backtick :: backtick :: backtick :: post from rfl]
      simp [startsWithL, jsonWord]
      intro hj
      exact absurd hj (by decide)
  rw [show (tripleTick ++ (body ++ (tripleTick ++ post)) : List Char) =
    backtick :: backtick :: backtick :: (body ++ (tripleTick ++ post)) from rfl]
  have hsw1 : startsWithL jsonFence
      (backtick :: backtick :: backtick :: (body ++ (tripleTick ++ post))) = false := by
    show startsWithL (backtick :: backtick :: backtick :: jsonWord) _ = false
    simp [startsWithL, hbj]
  have hsw2 : startsWithL jsonFence
      (backtick :: backtick :: (body ++ (tripleTick ++ post))) = false := by
    show startsWithL (backtick :: backtick :: backtick :: jsonWord) _ = false
    simp [startsWithL, hX1]
  have hsw3 : startsWithL jsonFence
      (backtick :: (body ++ (tripleTick ++ post))) = false := by
    show startsWithL (backtick :: backtick :: backtick :: jsonWord) _ = false
    simp [startsWithL, hX2]
  rw [splitFirst_cons, if_neg (by simp [hsw1])]
  rw [splitFirst_cons, if_neg (by simp [hsw2])]
  rw [splitFirst_cons, if_neg (by simp [hsw3])]
  rw [splitFirst_jsonFence_tail_none hb hp hpj]
  rfl

theorem splitFirst_json_none_of_fence_none {s : List Char}
    (h : splitFirst tripleTick s = none) : splitFirst jsonFence s = none := by
  induction s with
  | nil => exact splitFirst_nil (by decide)
  | cons c cs ih =>
    rw [splitFirst_cons] at h ⊢
    by_cases hsw : startsWithL tripleTick (c :: cs) = true
    · rw [if_pos hsw] at h; cases h
    · have hswj : ¬ startsWithL jsonFence (c :: cs) = true := by
        intro hj
        exact hsw (startsWithL_append_mono (a := tripleTick) (b := jsonWord) (by
          rw [show (tripleTick ++ jsonWord : List Char) = jsonFence from rfl]
          exact hj))
      rw [if_neg hsw] at h
      rw [if_neg hswj]
      have hrec : splitFirst tripleTick cs = none := by
        cases hx : splitFirst tripleTick cs with
        | none => rfl
        | some p => rw [hx] at h; simp at h
      rw [ih hrec]
      rfl

theorem pySplitL_headD {pat : List Char} (hpat : pat ≠ []) (s : List Char) :
    (pySplitL pat s).headD [] =
      match splitFirst pat s with
      | some (a, _) => a
      | none => s := by
  unfold pySplitL
  cases hn : s.length with
  | zero =>
    have hs : s = [] := List.length_eq_zero.mp hn
    subst hs
    rw [splitFirst_nil hpat]
    rfl
  | succ n =>
    cases hsp : splitFirst pat s with
    | none => simp [pySplitAux, hsp]
    | some p =>
      obtain ⟨a, b⟩ := p
      simp [pySplitAux, hsp]

theorem pySplitL_drop1_headD {pat : List Char} (hpat : pat ≠ []) {s a b : List Char}
    (h : splitFirst pat s = some (a, b)) :
    ((pySplitL pat s).drop 1).headD [] =
      match splitFirst pat b with
      | some (a2, _) => a2
      | none => b := by
  have hbl : b.length < s.length := splitFirst_length hpat h
  unfold pySplitL
  cases hn : s.length with
  | zero => omega
  | succ n =>
    simp only [pySplitAux, h]
    cases n with
    | zero =>
      have hb0 : b = [] := by
        have : b.length = 0 := by omega
        exact List.length_eq_zero.mp this
      subst hb0
      rw [splitFirst_nil hpat]
      rfl
    | succ m =>
      cases hsp : splitFirst pat b with
      | none => simp [pySplitAux, hsp]
      | some p =>
        obtain ⟨a2, b2⟩ := p
        simp [pySplitAux, hsp]

/-- C8: fence extraction. When the raw text contains a (well-separated)
`json`-tagged fenced block, the extractor returns that first block's
interior, stripped; when it contains a generic fenced block and no
`json`-tagged one, it returns the first generic block's interior, stripped;
and a text with no fence at all is returned unchanged. The separation
hypotheses say the surrounding pieces contain no backtick and do not
immediately continue the tag word, which is what "contains a fenced block"
means for this first-occurrence heuristic; the witness instantiates the
spec's concrete example. -/
theorem extractJson_fenced :
    (∀ pre body post : String,
      (∀ c ∈ pre.data, c ≠ backtick) → (∀ c ∈ body.data, c ≠ backtick) →
      (∀ c ∈ post.data, c ≠ backtick) → startsWithL jsonWord post.data = false →
      extractJson (pre ++ "```json" ++ body ++ "```" ++ post) =
        String.mk (pyStrip body.data)) ∧
    (∀ pre body post : String,
      (∀ c ∈ pre.data, c ≠ backtick) → (∀ c ∈ body.data, c ≠ backtick) →
      (∀ c ∈ post.data, c ≠ backtick) →
      startsWithL jsonWord (body.data ++ (tripleTick ++ post.data)) = false →
      startsWithL jsonWord post.data = false →
      extractJson (pre ++ "```" ++ body ++ "```" ++ post) =
        String.mk (pyStrip body.data)) ∧
    (∀ t : String, splitFirst tripleTick t.data = none → extractJson t = t) := by
  refine ⟨?_, ?_, ?_⟩
  · intro pre body post hpre hbody hpost hpj
    have hs : (pre ++ "```json" ++ body ++ "```" ++ post).data =
        pre.data ++ (jsonFence ++ (body.data ++ (tripleTick ++ post.data))) := by
      simp [jsonFence, tripleTick]
    have htail : splitFirst jsonFence (body.data ++ (tripleTick ++ post.data)) = none :=
      splitFirst_jsonFence_tail_none hbody hpost hpj
    have h1 : splitFirst jsonFence ((pre ++ "```json" ++ body ++ "```" ++ post).data) =
        some (pre.data, body.data ++ (tripleTick ++ post.data)) := by
      rw [hs]
      have hx := splitFirst_skip_some
        (show jsonFence.head? = some backtick from rfl) hpre
        (splitFirst_self_start (by decide) (body.data ++ (tripleTick ++ post.data)))
      simpa using hx
    have hchunk : ((pySplitL jsonFence
        ((pre ++ "```json" ++ body ++ "```" ++ post).data)).drop 1).headD [] =
        body.data ++ (tripleTick ++ post.data) := by
      rw [pySplitL_drop1_headD (by decide) h1, htail]
    have hfence : splitFirst tripleTick (body.data ++ (tripleTick ++ post.data)) =
        some (body.data, post.data) := by
      have hx := splitFirst_skip_some
        (show tripleTick.head? = some backtick from rfl) hbody
        (splitFirst_self_start (by decide) post.data)
      simpa using hx
    have hinner : (pySplitL tripleTick (body.data ++ (tripleTick ++ post.data))).headD [] =
        body.data := by
      rw [pySplitL_headD (by decide), hfence]
    simp only [extractJson, h1, Option.isSome_some, if_true, hchunk, hinner]
  · intro pre body post hpre hbody hpost hbj hpj
    have hs : (pre ++ "```" ++ body ++ "```" ++ post).data =
        pre.data ++ (tripleTick ++ (body.data ++ (tripleTick ++ post.data))) := by
      simp [tripleTick]
    have h0 : splitFirst jsonFence ((pre ++ "```" ++ body ++ "```" ++ post).data) = none := by
      rw [hs]
      exact splitFirst_skip_none (show jsonFence.head? = some backtick from rfl) hpre
        (splitFirst_jsonFence_generic_none hbody hpost hbj hpj)
    have h1 : splitFirst tripleTick ((pre ++ "```" ++ body ++ "```" ++ post).data) =
        some (pre.data, body.data ++ (tripleTick ++ post.data)) := by
      rw [hs]
      have hx := splitFirst_skip_some
        (show tripleTick.head? = some backtick from rfl) hpre
        (splitFirst_self_start (by decide) (body.data ++ (tripleTick ++ post.data)))
      simpa using hx
    have hfence : splitFirst tripleTick (body.data ++ (tripleTick ++ post.data)) =
        some (body.data, post.data) := by
      have hx := splitFirst_skip_some
        (show tripleTick.head? = some backtick from rfl) hbody
        (splitFirst_self_start (by decide) post.data)
      simpa using hx
    have hchunk : ((pySplitL tripleTick
        ((pre ++ "```" ++ body ++ "```" ++ post).data)).drop 1).headD [] = body.data := by
      rw [pySplitL_drop1_headD (by decide) h1, hfence]
    have hinner : (pySplitL tripleTick body.data).headD [] = body.data := by
      rw [pySplitL_headD (by decide),
        splitFirst_none_noHead (show tripleTick.head? = some backtick from rfl) hbody]
    simp only [extractJson, h0, h1, Option.isSome_none, Option.isSome_some,
      Bool.false_eq_true, if_false, if_true, hchunk, hinner]
  · intro t h0
    have hj : splitFirst jsonFence t.data = none := splitFirst_json_none_of_fence_none h0
    simp [extractJson, hj, h0]

theorem extractJson_fenced_witness :
    extractJson "prefix ```json\n\x7b\"a\":1\x7d\n``` suffix" = "\x7b\"a\":1\x7d" ∧
    extractJson "\x7b\"a\":1\x7d" = "\x7b\"a\":1\x7d" := by
  constructor
  · have h := extractJson_fenced.1 "prefix " "\n\x7b\"a\":1\x7d\n" " suffix"
      (by decide) (by decide) (by decide) (by decide)
    have e1 : ("prefix " ++ "```json" ++ "\n\x7b\"a\":1\x7d\n" ++ "```" ++ " suffix" : String) =
        "prefix ```json\n\x7b\"a\":1\x7d\n``` suffix" := by decide
    have e2 : String.mk (pyStrip ("\n\x7b\"a\":1\x7d\n" : String).data) = "\x7b\"a\":1\x7d" := by
      decide
    rw [e1, e2] at h
    exact h
  · exact extractJson_fenced.2.2 "\x7b\"a\":1\x7d" (by decide)

theorem setPairs_isSome_mono {α : Type} (m : List (String × α)) (k' : String) (v : α)
    (k : String) (h : (lookupKey m k).isSome = true) :
    (lookupKey (setPairs m k' v) k).isSome = true := by
  by_cases he : k = k'
  · subst he
    rw [lookupKey_setPairs_self]
    rfl
  · rw [lookupKey_setPairs_ne _ _ _ _ he]
    exact h

theorem applyVideoRes_df (m : List (String × MVal)) (st : RawStream) :
    lookupKey (applyVideoRes m st) "duration_formatted" =
      lookupKey m "duration_formatted" := by
  unfold applyVideoRes
  cases st.width <;> cases st.height <;>
    simp [lookupKey_setPairs_ne _ _ _ _ (by decide : "duration_formatted" ≠ "resolution"),
      lookupKey_setPairs_ne _ _ _ _ (by decide : "duration_formatted" ≠ "resolution_name")]

theorem applyVideoRes_mono (m : List (String × MVal)) (st : RawStream) (k : String)
    (h : (lookupKey m k).isSome = true) :
    (lookupKey (applyVideoRes m st) k).isSome = true := by
  unfold applyVideoRes
  cases st.width <;> cases st.height <;>
    first
      | exact h
      | exact setPairs_isSome_mono _ _ _ _ (setPairs_isSome_mono _ _ _ _ h)

theorem applyAspect_df (m : List (String × MVal)) (st : RawStream) :
    lookupKey (applyAspect m st) "duration_formatted" =
      lookupKey m "duration_formatted" := by
  unfold applyAspect
  cases st.display_aspect_ratio <;>
    simp [lookupKey_setPairs_ne _ _ _ _ (by decide : "duration_formatted" ≠ "aspect_ratio")]

theorem applyAspect_mono (m : List (String × MVal)) (st : RawStream) (k : String)
    (h : (lookupKey m k).isSome = true) :
    (lookupKey (applyAspect m st) k).isSome = true := by
  unfold applyAspect
  cases st.display_aspect_ratio <;>
    first
      | exact h
      | exact setPairs_isSome_mono _ _ _ _ h

theorem applyVCodec_df (m : List (String × MVal)) (st : RawStream) :
    lookupKey (applyVCodec m st) "duration_formatted" =
      lookupKey m "duration_formatted" := by
  unfold applyVCodec
  cases st.codec_name <;>
    simp [lookupKey_setPairs_ne _ _ _ _ (by decide : "duration_formatted" ≠ "video_codec")]

theorem applyVCodec_mono (m : List (String × MVal)) (st : RawStream) (k : String)
    (h : (lookupKey m k).isSome = true) :
    (lookupKey (applyVCodec m st) k).isSome = true := by
  unfold applyVCodec
  cases st.codec_name <;>
    first
      | exact h
      | exact setPairs_isSome_mono _ _ _ _ h

theorem applyACodec_df (m : List (String × MVal)) (st : RawStream) :
    lookupKey (applyACodec m st) "duration_formatted" =
      lookupKey m "duration_formatted" := by
  unfold applyACodec
  cases st.codec_name <;>
    simp [lookupKey_setPairs_ne _ _ _ _ (by decide : "duration_formatted" ≠ "audio_codec")]

theorem applyACodec_mono (m : List (String × MVal)) (st : RawStream) (k : String)
    (h : (lookupKey m k).isSome = true) :
    (lookupKey (applyACodec m st) k).isSome = true := by
  unfold applyACodec
  cases st.codec_name <;>
    first
      | exact h
      | exact setPairs_isSome_mono _ _ _ _ h

theorem applyFps_df {m : List (String × MVal)} {fr : String}
    {r : List (String × MVal)} (h : applyFps m fr = .ok r) :
    lookupKey r "duration_formatted" = lookupKey m "duration_formatted" := by
  unfold applyFps at h
  split at h
  · split at h
    · split at h
      · split at h
        · simp at h
          rw [← h]
          exact lookupKey_setPairs_ne _ _ _ _ (by decide)
        · simp at h
          rw [← h]
      · simp at h
    · simp at h
  · simp at h
    rw [← h]

theorem applyFps_mono {m : List (String × MVal)} {fr : String}
    {r : List (String × MVal)} (h : applyFps m fr = .ok r) (k : String)
    (hk : (lookupKey m k).isSome = true) :
    (lookupKey r k).isSome = true := by
  unfold applyFps at h
  split at h
  · split at h
    · split at h
      · split at h
        · simp at h
          rw [← h]
          exact setPairs_isSome_mono _ _ _ _ hk
        · simp at h
          rw [← h]
          exact hk
      · simp at h
    · simp at h
  · simp at h
    rw [← h]
    exact hk

theorem processStream_df {m : List (String × MVal)} {st : RawStream}
    {r : List (String × MVal)} (h : processStream m st = .ok r) :
    lookupKey r "duration_formatted" = lookupKey m "duration_formatted" := by
  unfold processStream at h
  split at h
  · cases hfr : st.avg_frame_rate with
    | some fr =>
      rw [hfr] at h
      rw [applyFps_df h, applyVCodec_df, applyAspect_df, applyVideoRes_df]
    | none =>
      rw [hfr] at h
      simp at h
      rw [← h, applyVCodec_df, applyAspect_df, applyVideoRes_df]
  · split at h
    · simp at h
      rw [← h, applyACodec_df]
    · simp at h
      rw [← h]

theorem processStream_mono {m : List (String × MVal)} {st : RawStream}
    {r : List (String × MVal)} (h : processStream m st = .ok r) (k : String)
    (hk : (lookupKey m k).isSome = true) :
    (lookupKey r k).isSome = true := by
  unfold processStream at h
  split at h
  · cases hfr : st.avg_frame_rate with
    | some fr =>
      rw [hfr] at h
      exact applyFps_mono h k
        (applyVCodec_mono _ _ _ (applyAspect_mono _ _ _ (applyVideoRes_mono _ _ _ hk)))
    | none =>
      rw [hfr] at h
      simp at h
      rw [← h]
      exact applyVCodec_mono _ _ _ (applyAspect_mono _ _ _ (applyVideoRes_mono _ _ _ hk))
  · split at h
    · simp at h
      rw [← h]
      exact applyACodec_mono _ _ _ hk
    · simp at h
      rw [← h]
      exact hk

theorem processStreams_df {sts : List RawStream} :
    ∀ {m r : List (String × MVal)}, processStreams m sts = .ok r →
      lookupKey r "duration_formatted" = lookupKey m "duration_formatted" := by
  induction sts with
  | nil =>
    intro m r h
    simp [processStreams] at h
    rw [← h]
  | cons st rest ih =>
    intro m r h
    simp only [processStreams] at h
    cases hp : processStream m st with
    | error e => rw [hp] at h; simp at h
    | ok m2 =>
      rw [hp] at h
      rw [ih h, processStream_df hp]

theorem processStreams_mono {sts : List RawStream} :
    ∀ {m r : List (String × MVal)}, processStreams m sts = .ok r →
      ∀ k, (lookupKey m k).isSome = true → (lookupKey r k).isSome = true := by
  induction sts with
  | nil =>
    intro m r h k hk
    simp [processStreams] at h
    rw [← h]
    exact hk
  | cons st rest ih =>
    intro m r h k hk
    simp only [processStreams] at h
    cases hp : processStream m st with
    | error e => rw [hp] at h; simp at h
    | ok m2 =>
      rw [hp] at h
      exact ih h k (processStream_mono hp k hk)

theorem applySize_df (m : List (String × MVal)) (fo : RawFormat) :
    lookupKey (applySize m fo) "duration_formatted" =
      lookupKey m "duration_formatted" := by
  unfold applySize
  cases fo.size <;>
    simp [lookupKey_setPairs_ne _ _ _ _ (by decide : "duration_formatted" ≠ "filesize_mb")]

theorem applyBitrate_df (m : List (String × MVal)) (fo : RawFormat) :
    lookupKey (applyBitrate m fo) "duration_formatted" =
      lookupKey m "duration_formatted" := by
  cases hbr : fo.bit_rate with
  | none => simp [applyBitrate, hbr]
  | some br =>
    by_cases hd : pyIsDigitStr br = true
    · simp [applyBitrate, hbr, hd,
        lookupKey_setPairs_ne _ _ _ _ (by decide : "duration_formatted" ≠ "bitrate")]
    · have hd2 : pyIsDigitStr br = false := by simpa using hd
      simp [applyBitrate, hbr, hd2]

theorem applySize_mono (m : List (String × MVal)) (fo : RawFormat) (k : String)
    (h : (lookupKey m k).isSome = true) :
    (lookupKey (applySize m fo) k).isSome = true := by
  unfold applySize
  cases fo.size <;>
    first
      | exact h
      | exact setPairs_isSome_mono _ _ _ _ h

theorem applyBitrate_mono (m : List (String × MVal)) (fo : RawFormat) (k : String)
    (h : (lookupKey m k).isSome = true) :
    (lookupKey (applyBitrate m fo) k).isSome = true := by
  cases hbr : fo.bit_rate with
  | none => simpa [applyBitrate, hbr] using h
  | some br =>
    by_cases hd : pyIsDigitStr br = true
    · simp only [applyBitrate, hbr, hd, if_true]
      exact setPairs_isSome_mono _ _ _ _ h
    · have hd2 : pyIsDigitStr br = false := by simpa using hd
      simp only [applyBitrate, hbr, hd2, Bool.false_eq_true, if_false]
      exact h

theorem applyDuration_mono (m : List (String × MVal)) (fo : RawFormat) (k : String)
    (h : (lookupKey m k).isSome = true) :
    (lookupKey (applyDuration m fo) k).isSome = true := by
  unfold applyDuration
  cases fo.duration <;>
    first
      | exact h
      | exact setPairs_isSome_mono _ _ _ _ (setPairs_isSome_mono _ _ _ _ h)

theorem applyFormat_df (m : List (String × MVal)) (fo : RawFormat) :
    lookupKey (applyFormat m fo) "duration_formatted" =
      match fo.duration with
      | some d => some (.str (formatHMS d))
      | none => lookupKey m "duration_formatted" := by
  unfold applyFormat
  rw [applyBitrate_df, applySize_df]
  unfold applyDuration
  cases fo.duration with
  | none => rfl
  | some d => rw [lookupKey_setPairs_self]

theorem applyFormat_mono (m : List (String × MVal)) (fo : RawFormat) (k : String)
    (hk : (lookupKey m k).isSome = true) :
    (lookupKey (applyFormat m fo) k).isSome = true :=
  applyBitrate_mono _ _ _ (applySize_mono _ _ _ (applyDuration_mono _ _ _ hk))

/-- C9 counterexample: on a successful probe whose `format` section reports
no duration, the returned record omits `duration_formatted` entirely — the
field is not present with a `"00:00:00"` sentinel (the `"00:00:00"` default
lives in the consumers\x27 `.get(...)` calls, not in the record). -/
theorem extract_metadata_counterexample :
    extract_video_metadata "video.mp4" ⟨some ⟨none, none, none⟩, some []⟩ =
      .ok (initMetadata "video.mp4") ∧
    lookupKey (initMetadata "video.mp4") "duration_formatted" = none ∧
    lookupKey (initMetadata "video.mp4") "duration" = some (.num 0) :=
  ⟨rfl, rfl, rfl⟩

theorem applyFormatOpt_df (m : List (String × MVal)) (ofo : Option RawFormat) :
    lookupKey (applyFormatOpt m ofo) "duration_formatted" =
      match ofo with
      | some fo =>
        match fo.duration with
        | some d => some (.str (formatHMS d))
        | none => lookupKey m "duration_formatted"
      | none => lookupKey m "duration_formatted" := by
  cases ofo with
  | none => rfl
  | some fo => exact applyFormat_df m fo

theorem applyFormatOpt_mono (m : List (String × MVal)) (ofo : Option RawFormat)
    (k : String) (hk : (lookupKey m k).isSome = true) :
    (lookupKey (applyFormatOpt m ofo) k).isSome = true := by
  cases ofo with
  | none => exact hk
  | some fo => exact applyFormat_mono m fo k hk

/-- C9 (amended): every successful probe result carries the descriptive
fields `filesize_mb`, `duration`, `resolution`, `aspect_ratio`,
`video_codec`, `audio_codec`, `bitrate` and `fps`, initialized to sentinel
values (`"unknown"`, `0`) and never removed; but `duration_formatted` is
present exactly when the probe\x27s `format` section reports a duration —
when it does not, the field is omitted rather than defaulted. -/
theorem extract_metadata_fields (vf : String) (raw : RawMetadata)
    (m : List (String × MVal)) (h : extract_video_metadata vf raw = .ok m) :
    ((lookupKey m "duration_formatted").isSome = true ↔
      (∃ fo, raw.format = some fo ∧ fo.duration.isSome = true)) ∧
    (∀ k ∈ (["filesize_mb", "duration", "resolution", "aspect_ratio",
              "video_codec", "audio_codec", "bitrate", "fps"] : List String),
      (lookupKey m k).isSome = true) := by
  have hinit : ∀ k ∈ (["filesize_mb", "duration", "resolution", "aspect_ratio",
      "video_codec", "audio_codec", "bitrate", "fps"] : List String),
      (lookupKey (initMetadata vf) k).isSome = true := by
    intro k hk
    fin_cases hk <;> rfl
  have hinitdf : lookupKey (initMetadata vf) "duration_formatted" = none := rfl
  unfold extract_video_metadata at h
  have hstep : lookupKey m "duration_formatted" =
      lookupKey (applyFormatOpt (initMetadata vf) raw.format) "duration_formatted" ∧
      ∀ k, (lookupKey (applyFormatOpt (initMetadata vf) raw.format) k).isSome = true →
        (lookupKey m k).isSome = true := by
    cases hsts : raw.streams with
    | none =>
      rw [hsts] at h
      simp only [Except.ok.injEq] at h
      subst h
      exact ⟨rfl, fun k hk => hk⟩
    | some sts =>
      rw [hsts] at h
      exact ⟨processStreams_df h, fun k hk => processStreams_mono h k hk⟩
  obtain ⟨hdfm, hmono⟩ := hstep
  constructor
  · rw [hdfm, applyFormatOpt_df]
    cases hfo : raw.format with
    | none => simp [hinitdf]
    | some fo =>
      cases hd : fo.duration with
      | none => simp [hd, hinitdf]
      | some d => simp [hd]
  · intro k hk
    exact hmono k (applyFormatOpt_mono _ _ _ (hinit k hk))

theorem extract_metadata_fields_witness :
    ((lookupKey (applyFormatOpt (initMetadata "video.mp4")
        (some ⟨some 61, none, none⟩)) "duration_formatted").isSome = true ↔
      (∃ fo, (RawMetadata.mk (some ⟨some 61, none, none⟩) none).format = some fo ∧
        fo.duration.isSome = true)) ∧
    (∀ k ∈ (["filesize_mb", "duration", "resolution", "aspect_ratio",
              "video_codec", "audio_codec", "bitrate", "fps"] : List String),
      (lookupKey (applyFormatOpt (initMetadata "video.mp4")
        (some ⟨some 61, none, none⟩)) k).isSome = true) :=
  extract_metadata_fields "video.mp4" ⟨some ⟨some 61, none, none⟩, none⟩ _ rfl

/-- C10: calling the validator with an empty known-filename list skips the
coverage check and gives the same result as passing no list at all — the
Python truthiness test `if all_filenames:` is falsy for both `None` and
`[]` — while a non-empty list does run the coverage check (see the
companion facts below the universal equation). -/
theorem validate_empty_known_filenames :
    (∀ doc, validate_shot_list_format doc (some []) =
      validate_shot_list_format doc none) ∧
    validate_shot_list_format (mkTimeDoc "00:00:01") (some []) = .ok (true, none) ∧
    validate_shot_list_format (mkTimeDoc "00:00:01") none = .ok (true, none) ∧
    validate_shot_list_format (mkTimeDoc "00:00:01") (some ["b.mp4"]) =
      .ok (false, some "Shot list is missing the following files: b.mp4") := by
  refine ⟨fun doc => ?_, rfl, rfl, rfl⟩
  unfold validate_shot_list_format
  cases checkRequiredKeys doc requiredKeys with
  | error e => rfl
  | ok o =>
    cases o with
    | some e => rfl
    | none =>
      cases pyGetItem doc "shots" with
      | error e => rfl
      | ok sv =>
        cases sv with
        | arr shots =>
          cases shots.length == 0 with
          | true => rfl
          | false =>
            cases checkShots 0 shots with
            | error e => rfl
            | ok o2 => cases o2 <;> rfl
        | str s => rfl
        | num n => rfl
        | bool b => rfl
        | null => rfl
        | obj kvs => rfl



